import Mathlib

/-!
# Herteby/AI: the run lifecycle orchestrator of the command-line chat client

A shallow embedding of `main.go` and `Api.go`.

* Go structs become Lean structures with the same field names (the field
  `Type` is written `Typ`; fields that no function reads are left out).
* Every effect of the program (a remote call through `Api`, a sleep, a shell
  command, terminal output, a read of standard input, a file access) is
  recorded as an `Event` appended to a chronological `Trace`.
* Whatever the outside world answers is taken from a `World`: the answer to the
  `n`-th call of an operation is a function of `n` and of the arguments of the
  call, so a `World` describes an arbitrary service, shell and operator.
* `log.Fatal`, a run-time panic and an exhausted loop budget end a computation
  with `Res.abort`; the trace up to that point is kept.
* The two loops that need not terminate, the poll loop and the session loop, take a
  bound on their number of iterations and end with `Abort.outOfFuel` when it is used up.
-/

namespace AI

/-! ## Data model (`main.go`, lines 18-205) -/

abbrev RunStatus := String

def StatusQueued : RunStatus := "queued"
def StatusInProgress : RunStatus := "in_progress"
def StatusRequiresAction : RunStatus := "requires_action"
def StatusCancelling : RunStatus := "cancelling"
def StatusCancelled : RunStatus := "cancelled"
def StatusFailed : RunStatus := "failed"
def StatusCompleted : RunStatus := "completed"
def StatusExpired : RunStatus := "expired"

abbrev Order := String

def Asc : Order := "asc"
def Desc : Order := "desc"

abbrev Role := String

def RoleSystem : Role := "system"
def RoleUser : Role := "user"
def RoleAssistant : Role := "assistant"
def RoleTool : Role := "tool"

structure Text where
  Value : String
  deriving DecidableEq, Repr

structure Content where
  Typ : String
  Text : Text
  deriving DecidableEq, Repr

structure FunctionArguments where
  Command : String
  deriving DecidableEq, Repr

structure FunctionDefinition where
  Name : String
  ArgumentsString : String
  Arguments : FunctionArguments
  deriving DecidableEq, Repr

structure RunToolCallObject where
  ID : String
  Typ : String
  Function : FunctionDefinition
  deriving DecidableEq, Repr

structure ToolOutput where
  ToolCallID : String
  Output : String
  deriving DecidableEq, Repr

structure SubmitToolOutputs where
  ToolCalls : List RunToolCallObject
  deriving DecidableEq, Repr

structure RequiredAction where
  Typ : String
  SubmitToolOutputs : SubmitToolOutputs
  deriving DecidableEq, Repr

structure AiThread where
  ID : String
  CreatedAt : Int
  deriving DecidableEq, Repr

structure Message where
  ID : String
  CreatedAt : Int
  ThreadID : String
  Role : Role
  Content : List Content
  deriving DecidableEq, Repr

structure MessageObject where
  ID : String
  CreatedAt : Int
  ThreadID : String
  Role : Role
  Content : List Content
  deriving DecidableEq, Repr

structure Run where
  ID : String
  CreatedAt : Int
  AssistantID : String
  ThreadID : String
  Status : String
  RequiredAction : RequiredAction
  deriving DecidableEq, Repr

structure ListMessagesResponse where
  Data : List Message
  deriving DecidableEq, Repr

structure ListRunsResponse where
  Data : List Run
  deriving DecidableEq, Repr

structure Store where
  Thread : AiThread
  deriving DecidableEq, Repr

/-- The pagination parameters of `Api.go`, line 163. -/
structure PaginationParams where
  Limit : Int
  Order : Order
  After : String
  Before : String
  deriving DecidableEq, Repr

def assistantId : String := "asst_zE0QYAfDkGC9igpaDd0GaSx6"

/-! ## `reverse` (`main.go`, lines 395-404) -/

/-- The swap `result[i], result[j] = result[j], result[i]`; an index out of
range (which Go would answer with a panic) leaves the slice alone. -/
def swapAt {α : Type} (result : List α) (i j : Nat) : List α :=
  match result[i]?, result[j]? with
  | some a, some b => (result.set i b).set j a
  | _, _ => result

/-- The loop `for i := 0; i < len(result)/2; i++` of `reverse`, started at `i`
with `n` iterations left. -/
def reverseLoop {α : Type} : Nat → Nat → List α → List α
  | 0, _, result => result
  | n + 1, i, result => reverseLoop n (i + 1) (swapAt result i (result.length - 1 - i))

/-- The function `reverse`: copy the slice, then swap the ends towards the middle. -/
def reverse {α : Type} (s : List α) : List α :=
  reverseLoop (s.length / 2) 0 s

/-! ## Errors, effects and the outside world -/

/-- Go `error` values, as far as the program and its libraries tell them apart. -/
inductive Error
  /-- An error of the transport or of a decoder, such as `fmt.Errorf("API call failed ...")`. -/
  | message (text : String)
  /-- The wrapping `fmt.Errorf("...: %w", err)`. -/
  | wrapped (text : String) (inner : Error)
  /-- The error of `ioutil.ReadFile` on a file that does not exist. -/
  | notExist
  /-- The `*exec.ExitError` of `os/exec`: the process started, ran and exited with the
  non-zero status `code`. -/
  | exitError (code : Nat)
  /-- The error of `os/exec` for a process that could not be started. -/
  | startError (text : String)
  deriving DecidableEq, Repr

/-- The check `os.IsNotExist(err)`. -/
def IsNotExist : Option Error → Bool
  | some Error.notExist => true
  | _ => false

inductive Color
  | white
  | cyan
  | yellow
  deriving DecidableEq, Repr

/-- One observable effect of the program. -/
inductive Event
  | print (text : String)
  | colorPrint (color : Color) (text : String)
  | sleep (seconds : Nat)
  | listRuns (threadID : String) (pagination : PaginationParams)
  | getRun (threadID runID : String)
  | executeCommand (command : String)
  | submitToolOutputsToRun (threadID runID : String) (toolOutputs : List ToolOutput)
  | listMessages (threadID : String) (pagination : PaginationParams)
  | readString
  | createMessage (threadID role content : String)
  | createRun (threadID assistantID : String)
  | createThread
  | readFile (filename : String)
  | writeFile (filename data : String)
  deriving DecidableEq, Repr

abbrev Trace := List Event

def Event.isListRuns : Event → Bool
  | Event.listRuns _ _ => true
  | _ => false

def Event.isGetRun : Event → Bool
  | Event.getRun _ _ => true
  | _ => false

def Event.isExecuteCommand : Event → Bool
  | Event.executeCommand _ => true
  | _ => false

def Event.isSubmit : Event → Bool
  | Event.submitToolOutputsToRun _ _ _ => true
  | _ => false

def Event.isListMessages : Event → Bool
  | Event.listMessages _ _ => true
  | _ => false

def Event.isReadString : Event → Bool
  | Event.readString => true
  | _ => false

def Event.isCreateMessage : Event → Bool
  | Event.createMessage _ _ _ => true
  | _ => false

def Event.isCreateRun : Event → Bool
  | Event.createRun _ _ => true
  | _ => false

def Event.isCreateThread : Event → Bool
  | Event.createThread => true
  | _ => false

def Event.isSleep : Event → Bool
  | Event.sleep _ => true
  | _ => false

def Event.isColorPrint : Event → Bool
  | Event.colorPrint _ _ => true
  | _ => false

def Event.isWriteFile : Event → Bool
  | Event.writeFile _ _ => true
  | _ => false

/-- The answers of everything outside the program. The first argument of an
operation is the number of earlier calls of the same operation. -/
structure World where
  listRuns : Nat → String → PaginationParams → Except Error ListRunsResponse
  getRun : Nat → String → String → Except Error Run
  submitToolOutputsToRun : Nat → String → String → List ToolOutput → Except Error Run
  listMessages : Nat → String → PaginationParams → Except Error ListMessagesResponse
  createMessage : Nat → String → String → String → Except Error MessageObject
  createRun : Nat → String → String → Except Error Run
  createThread : Nat → Except Error AiThread
  /-- The call `exec.Command("bash", "-c", command).CombinedOutput()`: the captured
  text, and `nil` exactly when the process started and exited with status 0. -/
  combinedOutput : Nat → String → String × Option Error
  /-- The line `reader.ReadString` hands back (its error is dropped by the caller). -/
  readString : Nat → String
  /-- The call `json.Unmarshal(fileData, &store)`: `none` when it reports an error. -/
  unmarshalStore : String → Option Store
  /-- The call `json.Marshal(Store{Thread: thread})`. -/
  marshalStore : Store → Except Error String

/-- How a computation can stop before its end. -/
inductive Abort
  | fatal (err : Error)
  | fatalCommand (command : String) (err : Error)
  | fatalText (text : String)
  | indexOutOfRange
  | outOfFuel
  deriving DecidableEq, Repr

inductive Res (α : Type)
  | ok (a : α)
  | abort (e : Abort)
  deriving DecidableEq, Repr

/-! ## The calls of `Api.go` -/

def createThread (w : World) (h : Trace) : Res (Except Error AiThread) × Trace :=
  let h1 := h ++ [Event.createThread]
  match w.createThread (h.countP Event.isCreateThread) with
  | Except.error err => (Res.ok (Except.error err), h1)
  | Except.ok thread =>
    if thread.ID = "" then (Res.abort (Abort.fatalText "empty thread ID"), h1)
    else (Res.ok (Except.ok thread), h1)

def createMessage (w : World) (threadID role content : String) (h : Trace) :
    Except Error MessageObject × Trace :=
  (w.createMessage (h.countP Event.isCreateMessage) threadID role content,
    h ++ [Event.createMessage threadID role content])

def getRun (w : World) (threadID runID : String) (h : Trace) : Except Error Run × Trace :=
  (w.getRun (h.countP Event.isGetRun) threadID runID, h ++ [Event.getRun threadID runID])

def createRun (w : World) (threadID assistantID : String) (h : Trace) :
    Except Error Run × Trace :=
  (w.createRun (h.countP Event.isCreateRun) threadID assistantID,
    h ++ [Event.createRun threadID assistantID])

def submitToolOutputsToRun (w : World) (threadID runID : String)
    (toolOutputs : List ToolOutput) (h : Trace) : Except Error Run × Trace :=
  (w.submitToolOutputsToRun (h.countP Event.isSubmit) threadID runID toolOutputs,
    h ++ [Event.submitToolOutputsToRun threadID runID toolOutputs])

def listRuns (w : World) (threadID : String) (pagination : PaginationParams) (h : Trace) :
    Except Error ListRunsResponse × Trace :=
  let h1 := h ++ [Event.listRuns threadID pagination]
  match w.listRuns (h.countP Event.isListRuns) threadID pagination with
  | Except.error err => (Except.error (Error.wrapped "listRuns API call failed" err), h1)
  | Except.ok responseStruct => (Except.ok responseStruct, h1)

def listMessages (w : World) (threadID : String) (pagination : PaginationParams) (h : Trace) :
    Except Error ListMessagesResponse × Trace :=
  (w.listMessages (h.countP Event.isListMessages) threadID pagination,
    h ++ [Event.listMessages threadID pagination])

/-! ## `executeCommand` and the tool calls (`main.go`, lines 268-292, 346-350) -/

/-- The function `executeCommand`: text and error of `CombinedOutput` are passed on as they are. -/
def executeCommand (w : World) (command : String) (h : Trace) :
    (String × Option Error) × Trace :=
  (w.combinedOutput (h.countP Event.isExecuteCommand) command,
    h ++ [Event.executeCommand command])

/-- The loop over `firstRun.RequiredAction.SubmitToolOutputs.ToolCalls` (lines 270-286). -/
def collectToolOutputs (w : World) :
    List RunToolCallObject → List ToolOutput → Trace → Res (List ToolOutput) × Trace
  | [], toolOutputs, h => (Res.ok toolOutputs, h)
  | toolCall :: rest, toolOutputs, h =>
    if toolCall.Function.Name = "terminal" then
      let command := toolCall.Function.Arguments.Command
      match executeCommand w command h with
      | ((_, some err), h1) => (Res.abort (Abort.fatalCommand command err), h1)
      | ((cmdOutput, none), h1) =>
        collectToolOutputs w rest
          (toolOutputs ++ [{ ToolCallID := toolCall.ID, Output := cmdOutput }]) h1
    else collectToolOutputs w rest toolOutputs h

/-! ## The poll loop (`main.go`, lines 257-266) -/

/-- The condition of the loop on line 257. -/
def isBusy (status : RunStatus) : Prop :=
  status = StatusQueued ∨ status = StatusInProgress ∨ status = StatusCancelling

instance (status : RunStatus) : Decidable (isBusy status) := by
  unfold isBusy; infer_instance

/-- The loop of lines 257-266; the first argument bounds the number of iterations. -/
def pollLoop (w : World) (threadID : String) : Nat → Run → Trace → Res Run × Trace
  | 0, firstRun, h =>
    if isBusy firstRun.Status then (Res.abort Abort.outOfFuel, h) else (Res.ok firstRun, h)
  | fuel + 1, firstRun, h =>
    if isBusy firstRun.Status then
      let h1 := h ++ [Event.print ("Polling: " ++ firstRun.Status ++ "\n"), Event.sleep 1]
      match getRun w threadID firstRun.ID h1 with
      | (Except.error err, h2) => (Res.abort (Abort.fatal err), h2)
      | (Except.ok updatedRun, h2) => pollLoop w threadID fuel updatedRun h2
    else (Res.ok firstRun, h)

/-- The `switch status` of lines 254-295; the result is the value of `promptUser`. -/
def handleStatus (w : World) (thread : AiThread) (pollFuel : Nat) (firstRun : Run)
    (h : Trace) : Res Bool × Trace :=
  let status := firstRun.Status
  if status = StatusQueued ∨ status = StatusInProgress ∨ status = StatusCancelling then
    match pollLoop w thread.ID pollFuel firstRun h with
    | (Res.abort e, h1) => (Res.abort e, h1)
    | (Res.ok _, h1) => (Res.ok false, h1)
  else if status = StatusRequiresAction then
    match collectToolOutputs w firstRun.RequiredAction.SubmitToolOutputs.ToolCalls [] h with
    | (Res.abort e, h1) => (Res.abort e, h1)
    | (Res.ok toolOutputs, h1) =>
      match submitToolOutputsToRun w thread.ID firstRun.ID toolOutputs h1 with
      | (Except.error err, h2) => (Res.abort (Abort.fatal err), h2)
      | (Except.ok _, h2) => (Res.ok false, h2)
  else if status = StatusCompleted then (Res.ok true, h)
  else (Res.ok false, h)

/-! ## Rendering (`main.go`, lines 297-316) -/

/-- The body of the loop on line 306: `message.Content[0]` panics on an empty slice. -/
def renderMessage (message : Message) (h : Trace) : Res Unit × Trace :=
  if message.Role = RoleSystem then
    match message.Content with
    | [] => (Res.abort Abort.indexOutOfRange, h)
    | c :: _ => (Res.ok (), h ++ [Event.colorPrint Color.white ("System: " ++ c.Text.Value ++ "\n")])
  else if message.Role = RoleAssistant then
    match message.Content with
    | [] => (Res.abort Abort.indexOutOfRange, h)
    | c :: _ => (Res.ok (), h ++ [Event.colorPrint Color.cyan ("Assistant: " ++ c.Text.Value ++ "\n")])
  else if message.Role = RoleUser then
    match message.Content with
    | [] => (Res.abort Abort.indexOutOfRange, h)
    | c :: _ => (Res.ok (), h ++ [Event.colorPrint Color.yellow ("You: " ++ c.Text.Value ++ "\n")])
  else (Res.ok (), h)

def renderMessages : List Message → Trace → Res Unit × Trace
  | [], h => (Res.ok (), h)
  | message :: rest, h =>
    match renderMessage message h with
    | (Res.abort e, h1) => (Res.abort e, h1)
    | (Res.ok _, h1) => renderMessages rest h1

/-- Step 3 of the turn: list the messages, newest first, and print them reversed. -/
def showMessages (w : World) (thread : AiThread) (h : Trace) : Res Unit × Trace :=
  match listMessages w thread.ID { Limit := 20, Order := Desc, After := "", Before := "" } h with
  | (Except.error err, h1) => (Res.abort (Abort.fatal err), h1)
  | (Except.ok messages, h1) => renderMessages (reverse messages.Data) h1

/-! ## The prompt (`main.go`, lines 321-340) -/

/-- The predicate `unicode.IsSpace`. -/
def isSpace (c : Char) : Bool :=
  let n := c.toNat
  (9 ≤ n && n ≤ 13) || n = 32 || n = 0x85 || n = 0xA0 || n = 0x1680 ||
    (0x2000 ≤ n && n ≤ 0x200A) || n = 0x2028 || n = 0x2029 || n = 0x202F ||
    n = 0x205F || n = 0x3000

/-- The function `strings.TrimSpace`. -/
def TrimSpace (s : String) : String :=
  String.mk ((s.data.dropWhile isSpace).reverse.dropWhile isSpace).reverse

def readString (w : World) (h : Trace) : String × Trace :=
  (w.readString (h.countP Event.isReadString), h ++ [Event.readString])

/-- What an iteration of the session loop asks for: another iteration, or `break`. -/
inductive Step
  | next
  | stop
  deriving DecidableEq, Repr

/-- The body of `if promptUser` (lines 323-339). -/
def promptStep (w : World) (thread : AiThread) (h : Trace) : Res Step × Trace :=
  match readString w (h ++ [Event.print "You: "]) with
  | (line, h1) =>
    let userInput := TrimSpace line
    if userInput = "exit" then (Res.ok Step.stop, h1)
    else
      match createMessage w thread.ID "user" userInput h1 with
      | (Except.error err, h2) => (Res.abort (Abort.fatal err), h2)
      | (Except.ok _, h2) =>
        match createRun w thread.ID assistantId h2 with
        | (Except.error err, h3) => (Res.abort (Abort.fatal err), h3)
        | (Except.ok _, h3) => (Res.ok Step.next, h3)

/-! ## The session loop (`main.go`, lines 242-341) -/

/-- One iteration of the `for` loop of `startChat`. -/
def turn (w : World) (thread : AiThread) (pollFuel : Nat) (h : Trace) : Res Step × Trace :=
  match listRuns w thread.ID { Limit := 1, Order := "", After := "", Before := "" } h with
  | (Except.error err, h1) => (Res.abort (Abort.fatal err), h1)
  | (Except.ok runs, h1) =>
    match runs.Data with
    | firstRun :: _ =>
      match handleStatus w thread pollFuel firstRun h1 with
      | (Res.abort e, h2) => (Res.abort e, h2)
      | (Res.ok promptUser, h2) =>
        match showMessages w thread h2 with
        | (Res.abort e, h3) => (Res.abort e, h3)
        | (Res.ok _, h3) =>
          if promptUser then promptStep w thread h3 else (Res.ok Step.next, h3)
    | [] => promptStep w thread h1

/-- The `for` loop of `startChat`; the first numeric argument bounds the number of turns. -/
def chatLoop (w : World) (thread : AiThread) (pollFuel : Nat) : Nat → Trace → Res Unit × Trace
  | 0, h => (Res.abort Abort.outOfFuel, h)
  | turns + 1, h =>
    match turn w thread pollFuel h with
    | (Res.abort e, h1) => (Res.abort e, h1)
    | (Res.ok Step.stop, h1) => (Res.ok (), h1)
    | (Res.ok Step.next, h1) => chatLoop w thread pollFuel turns h1

/-! ## The store file and `getThread` (`main.go`, lines 352-383) -/

/-- The state of the file `store.json`. -/
inductive FileState
  | absent
  | unreadable
  | content (data : String)
  deriving DecidableEq, Repr

structure FS where
  store : FileState
  readOnly : Bool
  deriving DecidableEq, Repr

/-- The call `ioutil.ReadFile(filename)`: the bytes read and the error. -/
def ReadFile (fs : FS) (filename : String) (h : Trace) : (String × Option Error) × Trace :=
  let h1 := h ++ [Event.readFile filename]
  match fs.store with
  | FileState.absent => (("", some Error.notExist), h1)
  | FileState.unreadable => (("", some (Error.message "permission denied")), h1)
  | FileState.content data => ((data, none), h1)

/-- The call `ioutil.WriteFile(filename, data, 0644)`. -/
def WriteFile (fs : FS) (filename data : String) (h : Trace) : Option Error × FS × Trace :=
  let h1 := h ++ [Event.writeFile filename data]
  if fs.readOnly then (some (Error.message "permission denied"), fs, h1)
  else (none, { fs with store := FileState.content data }, h1)

/-- The function `getThread`, with its Go result pair `(AiThread, error)`. -/
def getThread (w : World) (fs : FS) (h : Trace) : Res (AiThread × Option Error) × FS × Trace :=
  let filename := "store.json"
  match ReadFile fs filename h with
  | ((fileData, err), h1) =>
    match (if err = none then w.unmarshalStore fileData else none) with
    | some store => (Res.ok (store.Thread, none), fs, h1)
    | none =>
      if IsNotExist err = true ∨ err ≠ none then
        match createThread w h1 with
        | (Res.abort e, h2) => (Res.abort e, fs, h2)
        | (Res.ok (Except.error err2), h2) =>
          (Res.ok ({ ID := "", CreatedAt := 0 }, some err2), fs, h2)
        | (Res.ok (Except.ok thread), h2) =>
          match w.marshalStore { Thread := thread } with
          | Except.error err3 => (Res.ok ({ ID := "", CreatedAt := 0 }, some err3), fs, h2)
          | Except.ok updatedData =>
            match WriteFile fs filename updatedData h2 with
            | (some err4, fs1, h3) => (Res.ok ({ ID := "", CreatedAt := 0 }, some err4), fs1, h3)
            | (none, fs1, h3) => (Res.ok (thread, none), fs1, h3)
      else (Res.ok ({ ID := "", CreatedAt := 0 }, err), fs, h1)

/-- The line printed by `startChat` before anything else. -/
def banner : String := "Chat with AI Assistant. Type \x27exit\x27 to end the chat.\n"

/-- The function `startChat`; its result is the Go `error` it returns. -/
def startChat (w : World) (fs : FS) (pollFuel turns : Nat) (h : Trace) :
    Res (Option Error) × FS × Trace :=
  match getThread w fs (h ++ [Event.print banner]) with
  | (Res.abort e, fs1, h1) => (Res.abort e, fs1, h1)
  | (Res.ok (_, some err), fs1, h1) => (Res.abort (Abort.fatal err), fs1, h1)
  | (Res.ok (thread, none), fs1, h1) =>
    match chatLoop w thread pollFuel turns h1 with
    | (Res.abort e, h2) => (Res.abort e, fs1, h2)
    | (Res.ok _, h2) => (Res.ok none, fs1, h2)

/-! ## Classes of events, used to say what a phase of the turn can emit -/

/-- Events of the poll loop: the progress line, the sleep and the re-fetch. -/
def Event.isPollEvent : Event → Bool
  | Event.print _ => true
  | Event.sleep _ => true
  | Event.getRun _ _ => true
  | _ => false

/-- Events of the `switch status`: those of the poll loop, command executions and the submission. -/
def Event.isStatusEvent : Event → Bool
  | Event.print _ => true
  | Event.sleep _ => true
  | Event.getRun _ _ => true
  | Event.executeCommand _ => true
  | Event.submitToolOutputsToRun _ _ _ => true
  | _ => false

/-- Events of step 3: the listing call and the printed lines. -/
def Event.isRenderEvent : Event → Bool
  | Event.listMessages _ _ => true
  | Event.colorPrint _ _ => true
  | _ => false

/-- Events that only step 4 emits: the read of the line of the operator and the two calls after it. -/
def Event.isOperatorEvent : Event → Bool
  | Event.readString => true
  | Event.createMessage _ _ _ => true
  | Event.createRun _ _ => true
  | _ => false

/-- The condition under which step 4 of a turn is reached with `promptUser` set, read
off the answer of `listRuns`. -/
def PromptCond (w : World) (thread : AiThread) (h : Trace) : Prop :=
  ∃ resp, w.listRuns (h.countP Event.isListRuns) thread.ID
      { Limit := 1, Order := "", After := "", Before := "" } = Except.ok resp ∧
    (resp.Data = [] ∨ ∃ r rest, resp.Data = r :: rest ∧ r.Status = StatusCompleted)

/-! ## Vocabulary of the statements -/

/-- The events added to the trace `before` by a computation that ended with the trace `after`. -/
def emitted (before after : Trace) : Trace :=
  after.drop before.length

/-- The line printed for a message by the loop on line 306: the first content segment
behind the label of the role; none for any other role. -/
def renderedLine (m : Message) : Option Event :=
  match m.Content with
  | [] => none
  | seg :: _ =>
    if m.Role = RoleSystem then
      some (Event.colorPrint Color.white ("System: " ++ seg.Text.Value ++ "\n"))
    else if m.Role = RoleAssistant then
      some (Event.colorPrint Color.cyan ("Assistant: " ++ seg.Text.Value ++ "\n"))
    else if m.Role = RoleUser then
      some (Event.colorPrint Color.yellow ("You: " ++ seg.Text.Value ++ "\n"))
    else none

/-- The trace after `n` turns of the session loop none of which left the loop. -/
def runTurns (w : World) (thread : AiThread) (pollFuel : Nat) : Nat → Trace → Option Trace
  | 0, h => some h
  | n + 1, h =>
    match turn w thread pollFuel h with
    | (Res.ok Step.next, h1) => runTurns w thread pollFuel n h1
    | _ => none

/-! ## Sample data -/

def runsPage : PaginationParams := { Limit := 1, Order := "", After := "", Before := "" }

def messagesPage : PaginationParams := { Limit := 20, Order := Desc, After := "", Before := "" }

def sampleThread : AiThread := { ID := "thread_1", CreatedAt := 1700000000 }

def sampleRun (status : String) (calls : List RunToolCallObject) : Run :=
  { ID := "run_1", CreatedAt := 1700000001, AssistantID := assistantId, ThreadID := "thread_1",
    Status := status,
    RequiredAction := { Typ := "submit_tool_outputs", SubmitToolOutputs := { ToolCalls := calls } } }

def sampleCall (id name command : String) : RunToolCallObject :=
  { ID := id, Typ := "function",
    Function := { Name := name, ArgumentsString := "", Arguments := { Command := command } } }

def sampleMessage (id role : String) (segments : List String) : Message :=
  { ID := id, CreatedAt := 1700000002, ThreadID := "thread_1", Role := role,
    Content := segments.map fun v => { Typ := "text", Text := { Value := v } } }

/-- The bytes of the store file that holds `sampleThread`. -/
def sampleStoreData : String :=
  "\x7b\"thread\":\x7b\"id\":\"thread_1\",\"created_at\":1700000000\x7d\x7d"

/-- A service with no run and no message, a shell whose commands print nothing and
exit with status 0, and an operator who types `exit`. -/
def idleWorld : World where
  listRuns := fun _ _ _ => Except.ok { Data := [] }
  getRun := fun _ _ _ => Except.error (Error.message "API call failed with status: 404")
  submitToolOutputsToRun := fun _ _ _ _ => Except.ok (sampleRun "queued" [])
  listMessages := fun _ _ _ => Except.ok { Data := [] }
  createMessage := fun _ threadID role content => Except.ok
    { ID := "msg_new", CreatedAt := 1700000003, ThreadID := threadID, Role := role,
      Content := [{ Typ := "text", Text := { Value := content } }] }
  createRun := fun _ _ _ => Except.ok (sampleRun "queued" [])
  createThread := fun _ => Except.ok sampleThread
  combinedOutput := fun _ _ => ("", none)
  readString := fun _ => "exit\n"
  unmarshalStore := fun data =>
    if data = sampleStoreData then
      some { Thread := sampleThread }
    else none
  marshalStore := fun store => Except.ok
    ("\x7b\"thread\":\x7b\"id\":\"" ++ store.Thread.ID ++ "\",\"created_at\":" ++
      toString store.Thread.CreatedAt ++ "\x7d\x7d")

/-- The latest run is busy twice and then completed: `queued`, `in_progress`, `completed`. -/
def pollingWorld : World :=
  { idleWorld with
    listRuns := fun _ _ _ => Except.ok { Data := [sampleRun "queued" []] }
    getRun := fun n _ _ =>
      if n = 0 then Except.ok (sampleRun "in_progress" []) else Except.ok (sampleRun "completed" []) }

/-- The answers of `pollingWorld` to the two fetches of the poll loop. -/
def pollingAnswers : List Run := [sampleRun "in_progress" [], sampleRun "completed" []]

/-- The latest run is `run_1`, queued; the first fetch of it is answered with a run that
carries the identifier `run_other`, in progress, and the second with a completed run. -/
def wanderingWorld : World :=
  { idleWorld with
    listRuns := fun _ _ _ => Except.ok { Data := [sampleRun "queued" []] }
    getRun := fun n _ _ =>
      if n = 0 then Except.ok { sampleRun "in_progress" [] with ID := "run_other" }
      else Except.ok { sampleRun "completed" [] with ID := "run_other" } }

/-- The latest run asks for one shell command, which prints `hi`. -/
def echoWorld : World :=
  { idleWorld with
    listRuns := fun _ _ _ => Except.ok
      { Data := [sampleRun "requires_action" [sampleCall "call_1" "terminal" "echo hi"]] }
    combinedOutput := fun _ _ => ("hi\n", none) }

/-- The latest run asks twice under the same call identifier. -/
def twiceWorld : World :=
  { idleWorld with
    listRuns := fun _ _ _ => Except.ok
      { Data := [sampleRun "requires_action"
          [sampleCall "call_1" "terminal" "echo hi", sampleCall "call_1" "terminal" "echo hi"]] }
    combinedOutput := fun _ _ => ("hi\n", none) }

/-- The latest run asks for a command that runs and exits with status 2. -/
def failingWorld : World :=
  { idleWorld with
    listRuns := fun _ _ _ => Except.ok
      { Data := [sampleRun "requires_action" [sampleCall "call_1" "terminal" "ls /nonexistent"]] }
    combinedOutput := fun _ _ =>
      ("ls: cannot access \x27/nonexistent\x27: No such file or directory\n",
        some (Error.exitError 2)) }

/-- The latest run is completed and the thread holds two messages, listed newest first. -/
def completedWorld : World :=
  { idleWorld with
    listRuns := fun _ _ _ => Except.ok { Data := [sampleRun "completed" []] }
    listMessages := fun _ _ _ => Except.ok
      { Data := [sampleMessage "msg_2" "assistant" ["Hello!"], sampleMessage "msg_1" "user" ["hi"]] }
    readString := fun _ => "  how are you?\n" }

/-- The latest run has failed and the only message of the thread has the role `tool`. -/
def toolRoleWorld : World :=
  { idleWorld with
    listRuns := fun _ _ _ => Except.ok { Data := [sampleRun "failed" []] }
    listMessages := fun _ _ _ => Except.ok
      { Data := [sampleMessage "msg_1" "tool" ["total 0"]] } }

/-- The latest run has failed. -/
def failedWorld : World :=
  { idleWorld with
    listRuns := fun _ _ _ => Except.ok { Data := [sampleRun "failed" []] }
    listMessages := fun _ _ _ => Except.ok
      { Data := [sampleMessage "msg_1" "user" ["hi"]] } }

/-- A first session: no run at first, then the run created for the first line of the
operator, completed; the operator types `hi` and then `exit`. -/
def chattyWorld : World :=
  { idleWorld with
    listRuns := fun n _ _ =>
      if n = 0 then Except.ok { Data := [] } else Except.ok { Data := [sampleRun "completed" []] }
    listMessages := fun _ _ _ => Except.ok
      { Data := [sampleMessage "msg_2" "assistant" ["Hello!"], sampleMessage "msg_1" "user" ["hi"]] }
    readString := fun n => if n = 0 then "hi\n" else " exit\n" }

def emptyStore : FS := { store := FileState.absent, readOnly := false }

def loadedStore : FS := { store := FileState.content sampleStoreData, readOnly := false }

/-- The trace of a session that has just created and stored `sampleThread`. -/
def loadedTrace : Trace :=
  [Event.print banner, Event.readFile "store.json", Event.createThread,
    Event.writeFile "store.json" sampleStoreData]

/-- The trace of `chattyWorld` after the thread is loaded and the first turn is over. -/
def chattyTrace : Trace :=
  loadedTrace ++
    [Event.listRuns "thread_1" runsPage, Event.print "You: ", Event.readString,
      Event.createMessage "thread_1" "user" "hi",
      Event.createRun "thread_1" "asst_zE0QYAfDkGC9igpaDd0GaSx6"]

/-! # Theorems -/

/-! ## `reverse` is list reversal -/

theorem swapAt_length {α : Type} (l : List α) (i j : Nat) : (swapAt l i j).length = l.length := by
  unfold swapAt
  split <;> simp

theorem swapAt_getElem? {α : Type} (l : List α) (i j m : Nat) (hi : i < l.length) (hj : j < l.length) :
    (swapAt l i j)[m]? = if m = j then l[i]? else if m = i then l[j]? else l[m]? := by
  unfold swapAt
  rw [List.getElem?_eq_getElem hi, List.getElem?_eq_getElem hj]
  simp only [List.getElem?_set]
  by_cases h1 : m = j
  · subst h1; simp [hi, hj]
  · by_cases h2 : m = i
    · subst h2; simp [hi, hj, h1, Ne.symm h1]
    · simp [h1, h2, Ne.symm h1, Ne.symm h2]

theorem reverseLoop_length {α : Type} (k : Nat) : ∀ (i : Nat) (l : List α),
    (reverseLoop k i l).length = l.length := by
  induction k with
  | zero => intro i l; rfl
  | succ k ih => intro i l; simp [reverseLoop, ih, swapAt_length]

theorem reverseLoop_getElem? {α : Type} (k : Nat) : ∀ (i : Nat) (l : List α) (j : Nat),
    2 * (i + k) ≤ l.length →
    (reverseLoop k i l)[j]? =
      if (i ≤ j ∧ j < i + k) ∨ (l.length - i - k ≤ j ∧ j < l.length - i)
      then l[l.length - 1 - j]? else l[j]? := by
  induction k with
  | zero =>
    intro i l j _
    have : ¬ ((i ≤ j ∧ j < i + 0) ∨ (l.length - i - 0 ≤ j ∧ j < l.length - i)) := by omega
    rw [if_neg this]; rfl
  | succ k ih =>
    intro i l j h
    have hi : i < l.length := by omega
    have hj : l.length - 1 - i < l.length := by omega
    rw [reverseLoop, ih (i + 1) _ j (by rw [swapAt_length]; omega), swapAt_length,
      swapAt_getElem? l _ _ _ hi hj, swapAt_getElem? l _ _ _ hi hj]
    by_cases c1 : j = i
    · subst c1
      have a1 : ¬ ((j + 1 ≤ j ∧ j < j + 1 + k) ∨ (l.length - (j + 1) - k ≤ j ∧ j < l.length - (j + 1))) := by omega
      have a2 : (j ≤ j ∧ j < j + (k + 1)) ∨ (l.length - j - (k + 1) ≤ j ∧ j < l.length - j) := by omega
      have a3 : j ≠ l.length - 1 - j := by omega
      rw [if_neg a1, if_pos a2, if_neg a3, if_pos rfl]
    · by_cases c2 : j = l.length - 1 - i
      · have e1 : l.length - 1 - j = i := by omega
        have a1 : ¬ ((i + 1 ≤ j ∧ j < i + 1 + k) ∨ (l.length - (i + 1) - k ≤ j ∧ j < l.length - (i + 1))) := by omega
        have a2 : (i ≤ j ∧ j < i + (k + 1)) ∨ (l.length - i - (k + 1) ≤ j ∧ j < l.length - i) := by omega
        rw [if_neg a1, if_pos a2, if_pos c2, e1]
      · by_cases c3 : (i + 1 ≤ j ∧ j < i + 1 + k) ∨ (l.length - (i + 1) - k ≤ j ∧ j < l.length - (i + 1))
        · have a2 : (i ≤ j ∧ j < i + (k + 1)) ∨ (l.length - i - (k + 1) ≤ j ∧ j < l.length - i) := by omega
          have a3 : l.length - 1 - j ≠ l.length - 1 - i := by omega
          have a4 : l.length - 1 - j ≠ i := by omega
          rw [if_pos c3, if_pos a2, if_neg a3, if_neg a4]
        · have a2 : ¬ ((i ≤ j ∧ j < i + (k + 1)) ∨ (l.length - i - (k + 1) ≤ j ∧ j < l.length - i)) := by omega
          rw [if_neg c3, if_neg a2, if_neg c2, if_neg c1]

theorem reverse_eq_reverse {α : Type} (s : List α) : reverse s = s.reverse := by
  apply List.ext_getElem?
  intro j
  unfold reverse
  rw [reverseLoop_getElem? _ _ _ _ (by omega)]
  by_cases hj : j < s.length
  · rw [List.getElem?_reverse hj]
    by_cases c : (0 ≤ j ∧ j < 0 + s.length / 2) ∨ (s.length - 0 - s.length / 2 ≤ j ∧ j < s.length - 0)
    · rw [if_pos c]
    · have : s.length - 1 - j = j := by omega
      rw [if_neg c, this]
  · have e1 : s.reverse[j]? = none := by
      apply List.getElem?_eq_none; simp; omega
    have c : ¬ ((0 ≤ j ∧ j < 0 + s.length / 2) ∨ (s.length - 0 - s.length / 2 ≤ j ∧ j < s.length - 0)) := by omega
    have e2 : s[j]? = none := by
      apply List.getElem?_eq_none; omega
    rw [if_neg c, e1, e2]

/-! ## What each phase of a turn emits -/

theorem countP_eq_zero_of_forall {p q : Event → Bool} {l : List Event}
    (hl : ∀ e ∈ l, p e = true) (hpq : ∀ e, p e = true → q e = false) : l.countP q = 0 := by
  rw [List.countP_eq_zero]
  intro e he hq
  have := hpq e (hl e he)
  rw [this] at hq
  exact Bool.noConfusion hq

theorem pollLoop_events (w : World) (threadID : String) (fuel : Nat) :
    ∀ (firstRun : Run) (h : Trace), ∃ evs,
      (pollLoop w threadID fuel firstRun h).2 = h ++ evs ∧ ∀ e ∈ evs, e.isPollEvent = true := by
  induction fuel with
  | zero =>
    intro firstRun h
    refine ⟨[], ?_, by simp⟩
    unfold pollLoop
    split <;> simp
  | succ n ih =>
    intro firstRun h
    unfold pollLoop
    by_cases hb : isBusy firstRun.Status
    · simp only [hb, if_true, getRun]
      cases hg : w.getRun (List.countP Event.isGetRun
          (h ++ [Event.print ("Polling: " ++ firstRun.Status ++ "\n"), Event.sleep 1])) threadID firstRun.ID with
      | error err =>
        refine ⟨[Event.print ("Polling: " ++ firstRun.Status ++ "\n"), Event.sleep 1,
          Event.getRun threadID firstRun.ID], by simp, ?_⟩
        intro e he
        simp at he
        rcases he with rfl | rfl | rfl <;> rfl
      | ok r =>
        obtain ⟨evs, h1, h2⟩ := ih r (h ++ [Event.print ("Polling: " ++ firstRun.Status ++ "\n"),
          Event.sleep 1] ++ [Event.getRun threadID firstRun.ID])
        refine ⟨[Event.print ("Polling: " ++ firstRun.Status ++ "\n"), Event.sleep 1,
          Event.getRun threadID firstRun.ID] ++ evs, ?_, ?_⟩
        · simp only [h1]; simp
        · intro e he
          simp at he
          rcases he with rfl | rfl | rfl | he
          · rfl
          · rfl
          · rfl
          · exact h2 e he
    · refine ⟨[], ?_, by simp⟩
      simp [hb]

theorem collectToolOutputs_events (w : World) (calls : List RunToolCallObject) :
    ∀ (toolOutputs : List ToolOutput) (h : Trace), ∃ evs,
      (collectToolOutputs w calls toolOutputs h).2 = h ++ evs ∧
        ∀ e ∈ evs, e.isExecuteCommand = true := by
  induction calls with
  | nil => intro t h; exact ⟨[], by simp [collectToolOutputs], by simp⟩
  | cons c rest ih =>
    intro t h
    unfold collectToolOutputs
    by_cases hn : c.Function.Name = "terminal"
    · simp only [hn, if_true, executeCommand]
      cases hc : w.combinedOutput (List.countP Event.isExecuteCommand h) c.Function.Arguments.Command with
      | mk out err =>
        cases err with
        | some e0 =>
          refine ⟨[Event.executeCommand c.Function.Arguments.Command], by simp, ?_⟩
          intro e he
          simp at he
          subst he
          rfl
        | none =>
          obtain ⟨evs, h1, h2⟩ := ih (t ++ [{ ToolCallID := c.ID, Output := out }])
            (h ++ [Event.executeCommand c.Function.Arguments.Command])
          refine ⟨Event.executeCommand c.Function.Arguments.Command :: evs, ?_, ?_⟩
          · simp only [h1]; simp
          · intro e he
            simp at he
            rcases he with rfl | he
            · rfl
            · exact h2 e he
    · simp only [hn, if_false]
      exact ih t h

theorem isStatusEvent_of_isPollEvent (e : Event) (h : e.isPollEvent = true) :
    e.isStatusEvent = true := by
  cases e <;> simp_all [Event.isPollEvent, Event.isStatusEvent]

theorem isStatusEvent_of_isExecuteCommand (e : Event) (h : e.isExecuteCommand = true) :
    e.isStatusEvent = true := by
  cases e <;> simp_all [Event.isExecuteCommand, Event.isStatusEvent]

/-- The `switch status` emits status events only, and sets `promptUser` only for a
run fetched as completed, in which case it emits nothing. -/
theorem handleStatus_events (w : World) (thread : AiThread) (pollFuel : Nat) (firstRun : Run)
    (h : Trace) : ∃ evs,
      (handleStatus w thread pollFuel firstRun h).2 = h ++ evs ∧
      (∀ e ∈ evs, e.isStatusEvent = true) ∧
      ((handleStatus w thread pollFuel firstRun h).1 = Res.ok true ↔
        firstRun.Status = StatusCompleted) := by
  unfold handleStatus
  by_cases hb : firstRun.Status = StatusQueued ∨ firstRun.Status = StatusInProgress ∨
      firstRun.Status = StatusCancelling
  · have hc : firstRun.Status ≠ StatusCompleted := by
      rcases hb with hb | hb | hb <;> rw [hb] <;> decide
    obtain ⟨evs, h1, h2⟩ := pollLoop_events w thread.ID pollFuel firstRun h
    simp only [hb, if_true]
    refine ⟨evs, ?_, fun e he => isStatusEvent_of_isPollEvent e (h2 e he), ?_⟩
    · rw [← h1]; split <;> simp_all
    · split <;> simp_all
  · simp only [hb, if_false]
    by_cases hr : firstRun.Status = StatusRequiresAction
    · have hc : firstRun.Status ≠ StatusCompleted := by rw [hr]; decide
      simp only [hr, if_true]
      obtain ⟨evs, h1, h2⟩ := collectToolOutputs_events w
        firstRun.RequiredAction.SubmitToolOutputs.ToolCalls [] h
      cases hcol : collectToolOutputs w firstRun.RequiredAction.SubmitToolOutputs.ToolCalls [] h with
      | mk r h' =>
        rw [hcol] at h1
        simp only at h1
        subst h1
        cases r with
        | abort e =>
          exact ⟨evs, rfl, fun e he => isStatusEvent_of_isExecuteCommand e (h2 e he), by simp [← hr, hc]⟩
        | ok outs =>
          simp only [submitToolOutputsToRun]
          refine ⟨evs ++ [Event.submitToolOutputsToRun thread.ID firstRun.ID outs], ?_, ?_, ?_⟩
          · split <;> simp_all
          · intro e he
            simp at he
            rcases he with he | rfl
            · exact isStatusEvent_of_isExecuteCommand e (h2 e he)
            · rfl
          · split <;> simp_all
    · simp only [hr, if_false]
      by_cases hc : firstRun.Status = StatusCompleted
      · simp [hc]
      · simp [hc]

theorem renderMessage_events (message : Message) (h : Trace) : ∃ evs,
    (renderMessage message h).2 = h ++ evs ∧ ∀ e ∈ evs, e.isColorPrint = true := by
  unfold renderMessage
  split
  · split
    · exact ⟨[], by simp, by simp⟩
    · exact ⟨_, rfl, by simp [Event.isColorPrint]⟩
  · split
    · split
      · exact ⟨[], by simp, by simp⟩
      · exact ⟨_, rfl, by simp [Event.isColorPrint]⟩
    · split
      · split
        · exact ⟨[], by simp, by simp⟩
        · exact ⟨_, rfl, by simp [Event.isColorPrint]⟩
      · exact ⟨[], by simp, by simp⟩

theorem renderMessages_events (messages : List Message) : ∀ (h : Trace), ∃ evs,
    (renderMessages messages h).2 = h ++ evs ∧ ∀ e ∈ evs, e.isColorPrint = true := by
  induction messages with
  | nil => intro h; exact ⟨[], by simp [renderMessages], by simp⟩
  | cons m rest ih =>
    intro h
    unfold renderMessages
    obtain ⟨evs, h1, h2⟩ := renderMessage_events m h
    cases hm : renderMessage m h with
    | mk r h' =>
      rw [hm] at h1
      simp only at h1
      subst h1
      cases r with
      | abort e => exact ⟨evs, rfl, h2⟩
      | ok u =>
        obtain ⟨evs2, h3, h4⟩ := ih (h ++ evs)
        refine ⟨evs ++ evs2, ?_, ?_⟩
        · simp only [h3]; simp
        · intro e he
          simp at he
          rcases he with he | he
          · exact h2 e he
          · exact h4 e he

theorem showMessages_events (w : World) (thread : AiThread) (h : Trace) : ∃ evs,
    (showMessages w thread h).2 =
      h ++ Event.listMessages thread.ID { Limit := 20, Order := Desc, After := "", Before := "" }
        :: evs ∧ ∀ e ∈ evs, e.isColorPrint = true := by
  unfold showMessages listMessages
  cases hl : w.listMessages (List.countP Event.isListMessages h) thread.ID
      { Limit := 20, Order := Desc, After := "", Before := "" } with
  | error err => exact ⟨[], by simp, by simp⟩
  | ok messages =>
    obtain ⟨evs, h1, h2⟩ := renderMessages_events (reverse messages.Data)
      (h ++ [Event.listMessages thread.ID { Limit := 20, Order := Desc, After := "", Before := "" }])
    refine ⟨evs, ?_, h2⟩
    simp only [h1]; simp

/-! ## The prompt and the shape of a turn -/

theorem isOperatorEvent_of_isStatusEvent (e : Event) (h : e.isStatusEvent = true) :
    e.isOperatorEvent = false := by
  cases e <;> simp_all [Event.isOperatorEvent, Event.isStatusEvent]

theorem isOperatorEvent_of_isColorPrint (e : Event) (h : e.isColorPrint = true) :
    e.isOperatorEvent = false := by
  cases e <;> simp_all [Event.isOperatorEvent, Event.isColorPrint]

/-- Step 4 with the call counters of the trace at which it starts. -/
theorem promptStep_eq (w : World) (thread : AiThread) (h : Trace) :
    promptStep w thread h =
      if TrimSpace (w.readString (h.countP Event.isReadString)) = "exit" then
        (Res.ok Step.stop, h ++ [Event.print "You: ", Event.readString])
      else
        match w.createMessage (h.countP Event.isCreateMessage) thread.ID "user"
            (TrimSpace (w.readString (h.countP Event.isReadString))) with
        | Except.error err => (Res.abort (Abort.fatal err),
            h ++ [Event.print "You: ", Event.readString, Event.createMessage thread.ID "user"
              (TrimSpace (w.readString (h.countP Event.isReadString)))])
        | Except.ok _ =>
          match w.createRun (h.countP Event.isCreateRun) thread.ID assistantId with
          | Except.error err => (Res.abort (Abort.fatal err),
              h ++ [Event.print "You: ", Event.readString, Event.createMessage thread.ID "user"
                (TrimSpace (w.readString (h.countP Event.isReadString))),
                Event.createRun thread.ID assistantId])
          | Except.ok _ => (Res.ok Step.next,
              h ++ [Event.print "You: ", Event.readString, Event.createMessage thread.ID "user"
                (TrimSpace (w.readString (h.countP Event.isReadString))),
                Event.createRun thread.ID assistantId]) := by
  have e1 : List.countP Event.isReadString (h ++ [Event.print "You: "]) =
      List.countP Event.isReadString h := by
    simp [List.countP_append, List.countP_cons, Event.isReadString]
  have e2 : List.countP Event.isCreateMessage (h ++ [Event.print "You: "] ++ [Event.readString]) =
      List.countP Event.isCreateMessage h := by
    simp [List.countP_append, List.countP_cons, Event.isCreateMessage]
  have e3 : ∀ u, List.countP Event.isCreateRun (h ++ [Event.print "You: "] ++ [Event.readString]
      ++ [Event.createMessage thread.ID "user" u]) = List.countP Event.isCreateRun h := by
    intro u
    simp [List.countP_append, List.countP_cons, Event.isCreateRun]
  simp only [promptStep, readString, createMessage, createRun, e1, e2, e3]
  by_cases hx : TrimSpace (w.readString (List.countP Event.isReadString h)) = "exit"
  · simp [hx]
  · simp only [hx, if_false]
    cases w.createMessage (List.countP Event.isCreateMessage h) thread.ID "user"
        (TrimSpace (w.readString (List.countP Event.isReadString h))) with
    | error err => simp
    | ok m =>
      simp only [e3]
      cases w.createRun (List.countP Event.isCreateRun h) thread.ID assistantId with
      | error err => simp
      | ok r => simp

theorem promptStep_events (w : World) (thread : AiThread) (h : Trace) : ∃ evs,
    (promptStep w thread h).2 = h ++ [Event.print "You: ", Event.readString] ++ evs := by
  rw [promptStep_eq]
  split
  · exact ⟨[], by simp⟩
  · split
    · exact ⟨[Event.createMessage thread.ID "user"
        (TrimSpace (w.readString (h.countP Event.isReadString)))], by simp⟩
    · split
      · exact ⟨[Event.createMessage thread.ID "user"
          (TrimSpace (w.readString (h.countP Event.isReadString))),
          Event.createRun thread.ID assistantId], by simp⟩
      · exact ⟨[Event.createMessage thread.ID "user"
          (TrimSpace (w.readString (h.countP Event.isReadString))),
          Event.createRun thread.ID assistantId], by simp⟩

theorem turn_listRuns_error (w : World) (thread : AiThread) (pollFuel : Nat) (h : Trace)
    (err : Error)
    (hl : w.listRuns (h.countP Event.isListRuns) thread.ID
      { Limit := 1, Order := "", After := "", Before := "" } = Except.error err) :
    turn w thread pollFuel h =
      (Res.abort (Abort.fatal (Error.wrapped "listRuns API call failed" err)),
        h ++ [Event.listRuns thread.ID { Limit := 1, Order := "", After := "", Before := "" }]) := by
  simp only [turn, listRuns, hl]

theorem turn_no_run (w : World) (thread : AiThread) (pollFuel : Nat) (h : Trace)
    (resp : ListRunsResponse)
    (hl : w.listRuns (h.countP Event.isListRuns) thread.ID
      { Limit := 1, Order := "", After := "", Before := "" } = Except.ok resp)
    (hd : resp.Data = []) :
    turn w thread pollFuel h = promptStep w thread
      (h ++ [Event.listRuns thread.ID { Limit := 1, Order := "", After := "", Before := "" }]) := by
  simp only [turn, listRuns, hl, hd]

theorem turn_first_run (w : World) (thread : AiThread) (pollFuel : Nat) (h : Trace)
    (resp : ListRunsResponse) (firstRun : Run) (rest : List Run)
    (hl : w.listRuns (h.countP Event.isListRuns) thread.ID
      { Limit := 1, Order := "", After := "", Before := "" } = Except.ok resp)
    (hd : resp.Data = firstRun :: rest) :
    turn w thread pollFuel h =
      match handleStatus w thread pollFuel firstRun
        (h ++ [Event.listRuns thread.ID { Limit := 1, Order := "", After := "", Before := "" }]) with
      | (Res.abort e, h2) => (Res.abort e, h2)
      | (Res.ok promptUser, h2) =>
        match showMessages w thread h2 with
        | (Res.abort e, h3) => (Res.abort e, h3)
        | (Res.ok _, h3) =>
          if promptUser then promptStep w thread h3 else (Res.ok Step.next, h3) := by
  simp only [turn, listRuns, hl, hd]

/-- The shape of a turn: a prefix without operator events, after which the turn either
runs step 4 or is over. -/
theorem turn_shape (w : World) (thread : AiThread) (pollFuel : Nat) (h : Trace) :
    ∃ pre, (∀ e ∈ pre, e.isOperatorEvent = false) ∧
      ((turn w thread pollFuel h = promptStep w thread (h ++ pre) ∧ PromptCond w thread h) ∨
       ((turn w thread pollFuel h).2 = h ++ pre ∧
        (turn w thread pollFuel h).1 ≠ Res.ok Step.stop ∧
        ((∃ s, (turn w thread pollFuel h).1 = Res.ok s) → ¬ PromptCond w thread h))) := by
  cases hl : w.listRuns (List.countP Event.isListRuns h) thread.ID
      { Limit := 1, Order := "", After := "", Before := "" } with
  | error err =>
    rw [turn_listRuns_error w thread pollFuel h err hl]
    refine ⟨[Event.listRuns thread.ID { Limit := 1, Order := "", After := "", Before := "" }],
      ?_, Or.inr ⟨rfl, by simp, by simp⟩⟩
    intro e he
    simp at he
    subst he
    rfl
  | ok resp =>
    have hlr : ∀ e ∈ [Event.listRuns thread.ID
        { Limit := 1, Order := "", After := "", Before := "" }], e.isOperatorEvent = false := by
      intro e he
      simp at he
      subst he
      rfl
    cases hd : resp.Data with
    | nil =>
      rw [turn_no_run w thread pollFuel h resp hl hd]
      exact ⟨_, hlr, Or.inl ⟨rfl, resp, hl, Or.inl hd⟩⟩
    | cons firstRun rest =>
      rw [turn_first_run w thread pollFuel h resp firstRun rest hl hd]
      have hnc : ¬ firstRun.Status = StatusCompleted → ¬ PromptCond w thread h := by
        intro hn hc
        obtain ⟨resp2, he, hc⟩ := hc
        rw [hl] at he
        injection he with he
        subst he
        rcases hc with hc | ⟨r, rs, hc1, hc2⟩
        · rw [hd] at hc; exact List.noConfusion hc
        · rw [hd] at hc1
          injection hc1 with hc1 _
          subst hc1
          exact hn hc2
      obtain ⟨evs, h1, h2, h3⟩ := handleStatus_events w thread pollFuel firstRun
        (h ++ [Event.listRuns thread.ID { Limit := 1, Order := "", After := "", Before := "" }])
      cases hs : handleStatus w thread pollFuel firstRun
        (h ++ [Event.listRuns thread.ID { Limit := 1, Order := "", After := "", Before := "" }]) with
      | mk r h' =>
        rw [hs] at h1 h3
        simp only at h1 h3
        subst h1
        have hpre1 : ∀ e ∈ Event.listRuns thread.ID
            { Limit := 1, Order := "", After := "", Before := "" } :: evs,
            e.isOperatorEvent = false := by
          intro e he
          simp at he
          rcases he with rfl | he
          · rfl
          · exact isOperatorEvent_of_isStatusEvent e (h2 e he)
        cases r with
        | abort e =>
          exact ⟨_, hpre1, Or.inr ⟨by simp, by simp, by simp⟩⟩
        | ok pu =>
          simp only
          obtain ⟨evs2, h4, h5⟩ := showMessages_events w thread
            (h ++ [Event.listRuns thread.ID { Limit := 1, Order := "", After := "", Before := "" }]
              ++ evs)
          have hpre2 : ∀ e ∈ Event.listRuns thread.ID
              { Limit := 1, Order := "", After := "", Before := "" } :: (evs ++
              Event.listMessages thread.ID { Limit := 20, Order := Desc, After := "", Before := "" }
                :: evs2), e.isOperatorEvent = false := by
            intro e he
            simp at he
            rcases he with rfl | he | rfl | he
            · rfl
            · exact isOperatorEvent_of_isStatusEvent e (h2 e he)
            · rfl
            · exact isOperatorEvent_of_isColorPrint e (h5 e he)
          cases hm : showMessages w thread
            (h ++ [Event.listRuns thread.ID { Limit := 1, Order := "", After := "", Before := "" }]
              ++ evs) with
          | mk r2 t2 =>
            rw [hm] at h4
            simp only at h4
            subst h4
            cases r2 with
            | abort e =>
              exact ⟨_, hpre2, Or.inr ⟨by simp, by simp, by simp⟩⟩
            | ok u =>
              simp only
              cases pu with
              | true =>
                refine ⟨_, hpre2, Or.inl ⟨?_, resp, hl, Or.inr ⟨firstRun, rest, hd, h3.mp rfl⟩⟩⟩
                simp
              | false =>
                refine ⟨_, hpre2, Or.inr ⟨by simp, by simp, ?_⟩⟩
                intro _
                apply hnc
                intro hc
                have := h3.mpr hc
                exact Bool.noConfusion (Res.ok.inj this)

/-! ## The poll loop and the tool calls on a scripted world -/

/-- The poll loop on a scripted service: `rs` are the runs answered by the first
`rs.length` fetches, all but the last of them busy; a fetch asks for the identifier of
the run fetched last. -/
theorem pollLoop_script (w : World) (threadID : String) (rs : List Run) :
    ∀ (fuel : Nat) (firstRun : Run) (h : Trace),
      rs.length ≤ fuel →
      (∀ (j : Nat) (r asked : Run), rs[j]? = some r → (firstRun :: rs)[j]? = some asked →
        w.getRun (h.countP Event.isGetRun + j) threadID asked.ID = Except.ok r) →
      (∀ r ∈ (firstRun :: rs).dropLast, isBusy r.Status) →
      ¬ isBusy ((firstRun :: rs).getLast (List.cons_ne_nil _ _)).Status →
      pollLoop w threadID fuel firstRun h =
        (Res.ok ((firstRun :: rs).getLast (List.cons_ne_nil _ _)),
          h ++ ((firstRun :: rs).dropLast.flatMap fun r =>
            [Event.print ("Polling: " ++ r.Status ++ "\n"), Event.sleep 1,
              Event.getRun threadID r.ID])) := by
  induction rs with
  | nil =>
    intro fuel firstRun h _ _ _ hlast
    simp only [List.getLast_singleton] at hlast
    cases fuel <;> simp [pollLoop, hlast]
  | cons r rest ih =>
    intro fuel firstRun h hfuel hresp hbusy hlast
    cases fuel with
    | zero => simp at hfuel
    | succ fuel =>
      have hb : isBusy firstRun.Status := hbusy firstRun (by simp)
      have h0 := hresp 0 r firstRun (by simp) (by simp)
      simp only [Nat.add_zero] at h0
      have hc : List.countP Event.isGetRun
          (h ++ [Event.print ("Polling: " ++ firstRun.Status ++ "\n"), Event.sleep 1]) =
          List.countP Event.isGetRun h := by
        simp [List.countP_append, List.countP_cons, Event.isGetRun]
      have hc2 : List.countP Event.isGetRun
          (h ++ [Event.print ("Polling: " ++ firstRun.Status ++ "\n"), Event.sleep 1] ++
            [Event.getRun threadID firstRun.ID]) = List.countP Event.isGetRun h + 1 := by
        simp [List.countP_append, List.countP_cons, Event.isGetRun]
      simp only [pollLoop, hb, if_true, getRun, hc, h0]
      rw [ih fuel r _ (by simpa using hfuel)]
      · simp [List.getLast_cons, List.dropLast_cons₂, List.flatMap_cons]
      · intro j r2 asked h1 h2
        rw [hc2]
        have := hresp (j + 1) r2 asked (by simpa using h1) (by simpa using h2)
        simpa [Nat.add_assoc, Nat.add_comm 1 j] using this
      · intro r2 hr2
        apply hbusy
        rw [List.dropLast_cons₂]
        simp [hr2]
      · simpa [List.getLast_cons] using hlast

/-- All recognised commands succeed: every record is collected, in order. -/
theorem collectToolOutputs_ok (w : World) (calls : List RunToolCallObject) :
    ∀ (acc : List ToolOutput) (h : Trace),
      (∀ j (hj : j < (calls.filter fun c => c.Function.Name = "terminal").length),
        (w.combinedOutput (h.countP Event.isExecuteCommand + j)
          ((calls.filter fun c => c.Function.Name = "terminal")[j]).Function.Arguments.Command).2
          = none) →
      ∃ outs : List ToolOutput,
        collectToolOutputs w calls acc h =
          (Res.ok (acc ++ outs),
            h ++ (calls.filter fun c => c.Function.Name = "terminal").map
              fun c => Event.executeCommand c.Function.Arguments.Command) ∧
        outs.length = (calls.filter fun c => c.Function.Name = "terminal").length ∧
        ∀ j (hj : j < outs.length)
          (hj2 : j < (calls.filter fun c => c.Function.Name = "terminal").length),
          outs[j] =
            { ToolCallID := ((calls.filter fun c => c.Function.Name = "terminal")[j]).ID,
              Output := (w.combinedOutput (h.countP Event.isExecuteCommand + j)
                ((calls.filter fun c => c.Function.Name = "terminal")[j]).Function.Arguments.Command).1 } := by
  induction calls with
  | nil =>
    intro acc h _
    exact ⟨[], by simp [collectToolOutputs], rfl, by simp⟩
  | cons c rest ih =>
    intro acc h hok
    by_cases hn : c.Function.Name = "terminal"
    · have hf : ((c :: rest).filter fun c => c.Function.Name = "terminal") =
          c :: rest.filter fun c => c.Function.Name = "terminal" := by
        simp [List.filter_cons, hn]
      simp only [hf] at hok ⊢
      have h0 := hok 0 (by simp)
      simp only [Nat.add_zero, List.getElem_cons_zero] at h0
      have hc : List.countP Event.isExecuteCommand
          (h ++ [Event.executeCommand c.Function.Arguments.Command]) =
          List.countP Event.isExecuteCommand h + 1 := by
        simp [List.countP_append, List.countP_cons, Event.isExecuteCommand]
      obtain ⟨outs, e1, e2, e3⟩ := ih
        (acc ++ [{ ToolCallID := c.ID, Output := (w.combinedOutput
          (h.countP Event.isExecuteCommand) c.Function.Arguments.Command).1 }])
        (h ++ [Event.executeCommand c.Function.Arguments.Command]) (by
          intro j hj
          rw [hc]
          have := hok (j + 1) (by simpa using hj)
          simpa [Nat.add_assoc, Nat.add_comm 1 j] using this)
      refine ⟨{ ToolCallID := c.ID, Output := (w.combinedOutput
          (h.countP Event.isExecuteCommand) c.Function.Arguments.Command).1 } :: outs, ?_, ?_, ?_⟩
      · simp only [collectToolOutputs, hn, if_true, executeCommand]
        cases hco : w.combinedOutput (List.countP Event.isExecuteCommand h)
            c.Function.Arguments.Command with
        | mk out err =>
          rw [hco] at h0 e1
          simp only at h0
          subst h0
          simp only [e1]
          simp
      · simp [e2]
      · intro j hj hj2
        cases j with
        | zero => simp
        | succ j =>
          have := e3 j (by simpa using hj) (by simpa using hj2)
          rw [hc] at this
          simpa [Nat.add_assoc, Nat.add_comm 1 j] using this
    · have hf : ((c :: rest).filter fun c => c.Function.Name = "terminal") =
          rest.filter fun c => c.Function.Name = "terminal" := by
        simp [List.filter_cons, hn]
      simp only [hf] at hok ⊢
      simp only [collectToolOutputs, hn, if_false]
      exact ih acc h hok

/-- The first failing recognised command stops the loop with `log.Fatalf`. -/
theorem collectToolOutputs_fail (w : World) (calls : List RunToolCallObject) :
    ∀ (acc : List ToolOutput) (h : Trace) (j : Nat) (err : Error)
      (hj : j < (calls.filter fun c => c.Function.Name = "terminal").length),
      (∀ i (hi : i < (calls.filter fun c => c.Function.Name = "terminal").length), i < j →
        (w.combinedOutput (h.countP Event.isExecuteCommand + i)
          ((calls.filter fun c => c.Function.Name = "terminal")[i]).Function.Arguments.Command).2
          = none) →
      (w.combinedOutput (h.countP Event.isExecuteCommand + j)
          ((calls.filter fun c => c.Function.Name = "terminal")[j]).Function.Arguments.Command).2
          = some err →
      collectToolOutputs w calls acc h =
        (Res.abort (Abort.fatalCommand
            ((calls.filter fun c => c.Function.Name = "terminal")[j]).Function.Arguments.Command err),
          h ++ ((calls.filter fun c => c.Function.Name = "terminal").take (j + 1)).map
            fun c => Event.executeCommand c.Function.Arguments.Command) := by
  induction calls with
  | nil => intro acc h j err hj; simp at hj
  | cons c rest ih =>
    intro acc h j err hj hprev herr
    by_cases hn : c.Function.Name = "terminal"
    · have hf : ((c :: rest).filter fun c => c.Function.Name = "terminal") =
          c :: rest.filter fun c => c.Function.Name = "terminal" := by
        simp [List.filter_cons, hn]
      simp only [hf] at hj hprev herr ⊢
      have hc : List.countP Event.isExecuteCommand
          (h ++ [Event.executeCommand c.Function.Arguments.Command]) =
          List.countP Event.isExecuteCommand h + 1 := by
        simp [List.countP_append, List.countP_cons, Event.isExecuteCommand]
      cases j with
      | zero =>
        simp only [Nat.add_zero, List.getElem_cons_zero] at herr
        simp only [collectToolOutputs, hn, if_true, executeCommand, List.getElem_cons_zero]
        cases hco : w.combinedOutput (List.countP Event.isExecuteCommand h)
            c.Function.Arguments.Command with
        | mk out e0 =>
          rw [hco] at herr
          simp only at herr
          subst herr
          simp
      | succ j =>
        have h0 := hprev 0 (by simp) (by omega)
        simp only [Nat.add_zero, List.getElem_cons_zero] at h0
        simp only [collectToolOutputs, hn, if_true, executeCommand]
        cases hco : w.combinedOutput (List.countP Event.isExecuteCommand h)
            c.Function.Arguments.Command with
        | mk out e0 =>
          rw [hco] at h0
          simp only at h0
          subst h0
          simp only
          rw [ih _ _ j err (by simpa using hj)]
          · simp
          · intro i hi hij
            rw [hc]
            have := hprev (i + 1) (by simpa using hi) (by omega)
            simpa [Nat.add_assoc, Nat.add_comm 1 i] using this
          · rw [hc]
            simpa [Nat.add_assoc, Nat.add_comm 1 j] using herr
    · have hf : ((c :: rest).filter fun c => c.Function.Name = "terminal") =
          rest.filter fun c => c.Function.Name = "terminal" := by
        simp [List.filter_cons, hn]
      simp only [hf] at hj hprev herr ⊢
      simp only [collectToolOutputs, hn, if_false]
      exact ih acc h j err hj hprev herr

theorem renderMessage_not_fatalCommand (message : Message) (h : Trace) (command : String)
    (err : Error) : (renderMessage message h).1 ≠ Res.abort (Abort.fatalCommand command err) := by
  unfold renderMessage
  split
  · split <;> simp
  · split
    · split <;> simp
    · split
      · split <;> simp
      · simp

theorem renderMessages_not_fatalCommand (messages : List Message) : ∀ (h : Trace)
    (command : String) (err : Error),
    (renderMessages messages h).1 ≠ Res.abort (Abort.fatalCommand command err) := by
  induction messages with
  | nil => intro h command err; simp [renderMessages]
  | cons m rest ih =>
    intro h command err
    unfold renderMessages
    have := renderMessage_not_fatalCommand m h command err
    cases hm : renderMessage m h with
    | mk r h' =>
      rw [hm] at this
      cases r with
      | abort e => simpa using this
      | ok u => exact ih h' command err

theorem showMessages_not_fatalCommand (w : World) (thread : AiThread) (h : Trace)
    (command : String) (err : Error) :
    (showMessages w thread h).1 ≠ Res.abort (Abort.fatalCommand command err) := by
  unfold showMessages listMessages
  cases w.listMessages (List.countP Event.isListMessages h) thread.ID
      { Limit := 20, Order := Desc, After := "", Before := "" } with
  | error e => simp
  | ok messages => exact renderMessages_not_fatalCommand _ _ command err

/-! ## `reverse` (C5) and the poll loop (C3) -/

theorem emitted_append (h evs : Trace) : emitted h (h ++ evs) = evs := by
  simp [emitted]

theorem isRenderEvent_of_isColorPrint (e : Event) (h : e.isColorPrint = true) :
    e.isRenderEvent = true := by
  cases e <;> simp_all [Event.isRenderEvent, Event.isColorPrint]

/-- C5. `reverse` is a true reversal: the result has the length of its argument, its
element at position `i` is the element of the argument at position `len(s)-1-i`, the
newest-first sequence `[m1, m2, m3]` becomes `[m3, m2, m1]`, and reversing twice gives
the argument back. -/
theorem reverse_is_reversal {α : Type} (s : List α) :
    (reverse s).length = s.length ∧
    (∀ i, (reverse s)[i]? = if i < s.length then s[s.length - 1 - i]? else none) ∧
    (∀ m1 m2 m3 : α, reverse [m1, m2, m3] = [m3, m2, m1]) ∧
    reverse (reverse s) = s := by
  refine ⟨?_, ?_, ?_, ?_⟩
  · rw [reverse_eq_reverse, List.length_reverse]
  · intro i
    rw [reverse_eq_reverse]
    by_cases hi : i < s.length
    · rw [if_pos hi, List.getElem?_reverse hi]
    · rw [if_neg hi]
      apply List.getElem?_eq_none
      rw [List.length_reverse]
      omega
  · intro m1 m2 m3
    rw [reverse_eq_reverse]
    rfl
  · rw [reverse_eq_reverse, reverse_eq_reverse, List.reverse_reverse]

/-- C3, as amended. Take a turn whose first-fetched run is busy, and let `rs` be the
answers of the successive `getRun` fetches up to the first one that is not busy, the
`k`-th (`k = rs.length ≥ 1`), whatever identifiers these answers carry. Given a budget of
at least `k` iterations, the poll loop ends with the last answer after exactly `k` cycles
print-sleep-fetch. The first fetch asks for the identifier of the run first listed and
every later fetch for the identifier carried by the answer to the fetch before it; so
all fetches ask for the identifier of the run first listed whenever the answers that are
fetched again carry that identifier. Up to the last answer the turn has emitted nothing
but the `listRuns` call and these cycles (no submission, no prompt, no `createMessage`,
no `createRun`), and what follows in the turn is the listing and printing of messages. -/
theorem poll_until_not_busy (w : World) (thread : AiThread) (pollFuel : Nat) (h : Trace)
    (resp : ListRunsResponse) (firstRun : Run) (rest : List Run) (rs : List Run)
    (hl : w.listRuns (h.countP Event.isListRuns) thread.ID runsPage = Except.ok resp)
    (hd : resp.Data = firstRun :: rest)
    (hb : isBusy firstRun.Status)
    (hk : 1 ≤ rs.length) (hfuel : rs.length ≤ pollFuel)
    (hresp : ∀ (j : Nat) (r asked : Run), rs[j]? = some r → (firstRun :: rs)[j]? = some asked →
      w.getRun (h.countP Event.isGetRun + j) thread.ID asked.ID = Except.ok r)
    (hbusy : ∀ j (hj : j < rs.length), isBusy rs[j].Status ↔ j + 1 < rs.length) :
    ∃ (last : Run) (cycles tail : Trace),
      rs.getLast? = some last ∧
      cycles = ((firstRun :: rs.dropLast).flatMap fun r =>
        [Event.print ("Polling: " ++ r.Status ++ "\n"), Event.sleep 1,
          Event.getRun thread.ID r.ID]) ∧
      pollLoop w thread.ID pollFuel firstRun (h ++ [Event.listRuns thread.ID runsPage]) =
        (Res.ok last, h ++ [Event.listRuns thread.ID runsPage] ++ cycles) ∧
      cycles.countP Event.isSleep = rs.length ∧
      cycles.countP Event.isGetRun = rs.length ∧
      cycles.length = 3 * rs.length ∧
      cycles.filter Event.isGetRun =
        (firstRun :: rs.dropLast).map (fun r => Event.getRun thread.ID r.ID) ∧
      ((∀ r ∈ rs.dropLast, r.ID = firstRun.ID) →
        ∀ e ∈ cycles, e.isGetRun = true → e = Event.getRun thread.ID firstRun.ID) ∧
      (∀ e ∈ cycles, e.isPollEvent = true) ∧
      (turn w thread pollFuel h).2 = h ++ [Event.listRuns thread.ID runsPage] ++ cycles ++ tail ∧
      (∀ e ∈ tail, e.isRenderEvent = true) := by
  have hne : rs ≠ [] := by
    intro hn; rw [hn] at hk; simp at hk
  have hdl : (firstRun :: rs).dropLast = firstRun :: rs.dropLast := by
    cases rs with
    | nil => exact absurd rfl hne
    | cons a l => rw [List.dropLast_cons₂]
  have hlen : (firstRun :: rs.dropLast).length = rs.length := by
    simp only [List.length_cons, List.length_dropLast]
    omega
  have hdrop : ∀ r ∈ (firstRun :: rs).dropLast, isBusy r.Status := by
    intro r hr
    obtain ⟨i, hi, rfl⟩ := List.getElem_of_mem hr
    have hi2 : i < rs.length := by
      rw [hdl, hlen] at hi
      exact hi
    cases i with
    | zero => simpa using hb
    | succ i =>
      have e : (firstRun :: rs).dropLast[i + 1] = rs[i] := by
        rw [List.getElem_dropLast]
        simp
      rw [e]
      exact (hbusy i (by omega)).mpr hi2
  have hlast : ¬ isBusy ((firstRun :: rs).getLast (List.cons_ne_nil _ _)).Status := by
    rw [List.getLast_cons hne, List.getLast_eq_getElem]
    intro hc
    have := (hbusy (rs.length - 1) (by omega)).mp hc
    omega
  have hcount : List.countP Event.isGetRun (h ++ [Event.listRuns thread.ID runsPage]) =
      List.countP Event.isGetRun h := by
    simp [List.countP_append, List.countP_cons, Event.isGetRun]
  have hpoll := pollLoop_script w thread.ID rs pollFuel firstRun
    (h ++ [Event.listRuns thread.ID runsPage]) hfuel
    (by intro j r asked h1 h2; rw [hcount]; exact hresp j r asked h1 h2) hdrop hlast
  rw [hdl] at hpoll
  have hcyc : ∀ l : List Run,
      (l.flatMap fun r => [Event.print ("Polling: " ++ r.Status ++ "\n"), Event.sleep 1,
        Event.getRun thread.ID r.ID]).countP Event.isSleep = l.length ∧
      (l.flatMap fun r => [Event.print ("Polling: " ++ r.Status ++ "\n"), Event.sleep 1,
        Event.getRun thread.ID r.ID]).countP Event.isGetRun = l.length ∧
      (l.flatMap fun r => [Event.print ("Polling: " ++ r.Status ++ "\n"), Event.sleep 1,
        Event.getRun thread.ID r.ID]).length = 3 * l.length ∧
      (l.flatMap fun r => [Event.print ("Polling: " ++ r.Status ++ "\n"), Event.sleep 1,
        Event.getRun thread.ID r.ID]).filter Event.isGetRun =
          l.map (fun r => Event.getRun thread.ID r.ID) ∧
      (∀ e ∈ (l.flatMap fun r => [Event.print ("Polling: " ++ r.Status ++ "\n"), Event.sleep 1,
        Event.getRun thread.ID r.ID]), e.isPollEvent = true) := by
    intro l
    induction l with
    | nil => simp
    | cons a l ih =>
      obtain ⟨i1, i2, i3, i4, i5⟩ := ih
      simp only [List.flatMap_cons, List.countP_append, i1, i2, List.length_append, i3,
        List.length_cons, List.filter_append, i4, List.map_cons]
      refine ⟨?_, ?_, ?_, ?_, ?_⟩
      · simp [List.countP_cons, Event.isSleep]; omega
      · simp [List.countP_cons, Event.isGetRun]; omega
      · simp; omega
      · simp [List.filter_cons, Event.isGetRun]
      · intro e he
        rw [List.mem_append] at he
        rcases he with he | he
        · simp at he
          rcases he with rfl | rfl | rfl <;> rfl
        · exact i5 e he
  obtain ⟨c1, c2, c3, c4, c5⟩ := hcyc (firstRun :: rs.dropLast)
  rw [hlen] at c1 c2 c3
  have hsame : (∀ r ∈ rs.dropLast, r.ID = firstRun.ID) →
      ∀ e ∈ ((firstRun :: rs.dropLast).flatMap fun r =>
        [Event.print ("Polling: " ++ r.Status ++ "\n"), Event.sleep 1,
          Event.getRun thread.ID r.ID]),
        e.isGetRun = true → e = Event.getRun thread.ID firstRun.ID := by
    intro hids e he hg
    have hmem : e ∈ ((firstRun :: rs.dropLast).flatMap fun r =>
        [Event.print ("Polling: " ++ r.Status ++ "\n"), Event.sleep 1,
          Event.getRun thread.ID r.ID]).filter Event.isGetRun :=
      List.mem_filter.mpr ⟨he, hg⟩
    rw [c4, List.mem_map] at hmem
    obtain ⟨r, hr, rfl⟩ := hmem
    rw [List.mem_cons] at hr
    rcases hr with rfl | hr
    · rfl
    · rw [hids r hr]
  have hturn := turn_first_run w thread pollFuel h resp firstRun rest hl hd
  have hstat : handleStatus w thread pollFuel firstRun (h ++ [Event.listRuns thread.ID runsPage]) =
      (Res.ok false, h ++ [Event.listRuns thread.ID runsPage] ++
        ((firstRun :: rs.dropLast).flatMap fun r =>
          [Event.print ("Polling: " ++ r.Status ++ "\n"), Event.sleep 1,
            Event.getRun thread.ID r.ID])) := by
    have hb2 : firstRun.Status = StatusQueued ∨ firstRun.Status = StatusInProgress ∨
        firstRun.Status = StatusCancelling := hb
    simp only [handleStatus, hb2, if_true, hpoll]
  obtain ⟨lines, hs1, hs2⟩ := showMessages_events w thread
    (h ++ [Event.listRuns thread.ID runsPage] ++
      ((firstRun :: rs.dropLast).flatMap fun r =>
        [Event.print ("Polling: " ++ r.Status ++ "\n"), Event.sleep 1,
          Event.getRun thread.ID r.ID]))
  refine ⟨(firstRun :: rs).getLast (List.cons_ne_nil _ _), _,
    Event.listMessages thread.ID messagesPage :: lines, ?_, rfl, hpoll, c1, c2, c3, c4,
    hsame, c5, ?_, ?_⟩
  · rw [List.getLast_cons hne, List.getLast?_eq_getLast _ hne]
  · have hturn2 : turn w thread pollFuel h =
        match showMessages w thread (h ++ [Event.listRuns thread.ID runsPage] ++
          ((firstRun :: rs.dropLast).flatMap fun r =>
            [Event.print ("Polling: " ++ r.Status ++ "\n"), Event.sleep 1,
              Event.getRun thread.ID r.ID])) with
        | (Res.abort e, h3) => (Res.abort e, h3)
        | (Res.ok _, h3) => (Res.ok Step.next, h3) := by
      rw [hturn]
      show (match handleStatus w thread pollFuel firstRun
        (h ++ [Event.listRuns thread.ID runsPage]) with
        | (Res.abort e, h2) => (Res.abort e, h2)
        | (Res.ok promptUser, h2) =>
          match showMessages w thread h2 with
          | (Res.abort e, h3) => (Res.abort e, h3)
          | (Res.ok _, h3) =>
            if promptUser then promptStep w thread h3 else (Res.ok Step.next, h3)) = _
      rw [hstat]
      simp
    rw [hturn2]
    cases hsm : showMessages w thread (h ++ [Event.listRuns thread.ID runsPage] ++
        ((firstRun :: rs.dropLast).flatMap fun r =>
          [Event.print ("Polling: " ++ r.Status ++ "\n"), Event.sleep 1,
            Event.getRun thread.ID r.ID])) with
    | mk r h3 =>
      rw [hsm] at hs1
      simp only at hs1
      cases r <;> simp [hs1, messagesPage]
  · intro e he
    simp at he
    rcases he with rfl | he
    · rfl
    · exact isRenderEvent_of_isColorPrint e (hs2 e he)

/-- C3, as amended, on the sequence `queued`, `in_progress`, `completed`, answered under
the identifier of the run first listed: exactly two cycles, both fetching `run_1`. -/
theorem poll_until_not_busy_witness :
    turn pollingWorld sampleThread 2 [] =
      (Res.ok Step.next,
        [Event.listRuns "thread_1" runsPage,
          Event.print "Polling: queued\n", Event.sleep 1, Event.getRun "thread_1" "run_1",
          Event.print "Polling: in_progress\n", Event.sleep 1, Event.getRun "thread_1" "run_1",
          Event.listMessages "thread_1" messagesPage]) ∧
    ∃ (last : Run) (cycles tail : Trace),
      pollingAnswers.getLast? = some last ∧
      cycles = ((sampleRun "queued" [] :: pollingAnswers.dropLast).flatMap fun r =>
        [Event.print ("Polling: " ++ r.Status ++ "\n"), Event.sleep 1,
          Event.getRun sampleThread.ID r.ID]) ∧
      pollLoop pollingWorld sampleThread.ID 2 (sampleRun "queued" [])
          ([] ++ [Event.listRuns sampleThread.ID runsPage]) =
        (Res.ok last, [] ++ [Event.listRuns sampleThread.ID runsPage] ++ cycles) ∧
      cycles.countP Event.isSleep = pollingAnswers.length ∧
      cycles.countP Event.isGetRun = pollingAnswers.length ∧
      cycles.length = 3 * pollingAnswers.length ∧
      cycles.filter Event.isGetRun =
        (sampleRun "queued" [] :: pollingAnswers.dropLast).map
          (fun r => Event.getRun sampleThread.ID r.ID) ∧
      ((∀ r ∈ pollingAnswers.dropLast, r.ID = (sampleRun "queued" []).ID) →
        ∀ e ∈ cycles, e.isGetRun = true →
          e = Event.getRun sampleThread.ID (sampleRun "queued" []).ID) ∧
      (∀ e ∈ cycles, e.isPollEvent = true) ∧
      (turn pollingWorld sampleThread 2 []).2 =
        [] ++ [Event.listRuns sampleThread.ID runsPage] ++ cycles ++ tail ∧
      (∀ e ∈ tail, e.isRenderEvent = true) :=
  ⟨by decide,
    poll_until_not_busy pollingWorld sampleThread 2 []
      { Data := [sampleRun "queued" []] } (sampleRun "queued" []) [] pollingAnswers
      rfl rfl (by decide) (by decide) (by decide)
      (by intro j r asked h1 h2
          match j, h1, h2 with
          | 0, h1, _ =>
            have e1 : sampleRun "in_progress" [] = r := Option.some.inj h1
            rw [← e1]
            rfl
          | 1, h1, _ =>
            have e1 : sampleRun "completed" [] = r := Option.some.inj h1
            rw [← e1]
            rfl
          | n + 2, h1, _ => exact Option.noConfusion h1)
      (by intro j hj
          have hj2 : j < 2 := hj
          interval_cases j
          · show isBusy "in_progress" ↔ 0 + 1 < 2
            decide
          · show isBusy "completed" ↔ 1 + 1 < 2
            decide)⟩

/-- C3 as stated fails on a service that answers the fetch of `run_1` with a run carrying
the identifier `run_other`: the loop still makes two cycles, and the second fetch asks
for `run_other`, not for the run first listed. -/
theorem poll_refetches_answered_id_counterexample :
    (sampleRun "queued" []).ID = "run_1" ∧
    wanderingWorld.getRun 0 "thread_1" "run_1" =
      Except.ok { sampleRun "in_progress" [] with ID := "run_other" } ∧
    turn wanderingWorld sampleThread 2 [] =
      (Res.ok Step.next,
        [Event.listRuns "thread_1" runsPage,
          Event.print "Polling: queued\n", Event.sleep 1, Event.getRun "thread_1" "run_1",
          Event.print "Polling: in_progress\n", Event.sleep 1,
          Event.getRun "thread_1" "run_other",
          Event.listMessages "thread_1" messagesPage]) ∧
    Event.getRun "thread_1" "run_other" ∈ emitted [] (turn wanderingWorld sampleThread 2 []).2 ∧
    Event.getRun "thread_1" "run_other" ≠ Event.getRun "thread_1" "run_1" :=
  ⟨rfl, rfl, by decide, by decide, by decide⟩

/-- A turn on a run that requires action, all of whose recognised commands succeed. -/
theorem turn_requires_action_ok (w : World) (thread : AiThread) (pollFuel : Nat) (h : Trace)
    (resp : ListRunsResponse) (firstRun : Run) (rest : List Run)
    (hl : w.listRuns (h.countP Event.isListRuns) thread.ID runsPage = Except.ok resp)
    (hd : resp.Data = firstRun :: rest)
    (hs : firstRun.Status = StatusRequiresAction)
    (hok : ∀ j (hj : j < (firstRun.RequiredAction.SubmitToolOutputs.ToolCalls.filter
        fun c => c.Function.Name = "terminal").length),
      (w.combinedOutput (h.countP Event.isExecuteCommand + j)
        ((firstRun.RequiredAction.SubmitToolOutputs.ToolCalls.filter
          fun c => c.Function.Name = "terminal")[j]).Function.Arguments.Command).2 = none) :
    ∃ (outputs : List ToolOutput) (tail : Trace),
      (turn w thread pollFuel h).2 =
        h ++ [Event.listRuns thread.ID runsPage] ++
          ((firstRun.RequiredAction.SubmitToolOutputs.ToolCalls.filter
            fun c => c.Function.Name = "terminal").map
            fun c => Event.executeCommand c.Function.Arguments.Command) ++
          [Event.submitToolOutputsToRun thread.ID firstRun.ID outputs] ++ tail ∧
      (∀ e ∈ tail, e.isRenderEvent = true) ∧
      (∀ command err, (turn w thread pollFuel h).1 ≠ Res.abort (Abort.fatalCommand command err)) ∧
      outputs.length = (firstRun.RequiredAction.SubmitToolOutputs.ToolCalls.filter
        fun c => c.Function.Name = "terminal").length ∧
      ∀ j (hj : j < outputs.length)
        (hj2 : j < (firstRun.RequiredAction.SubmitToolOutputs.ToolCalls.filter
          fun c => c.Function.Name = "terminal").length),
        outputs[j] =
          { ToolCallID := ((firstRun.RequiredAction.SubmitToolOutputs.ToolCalls.filter
              fun c => c.Function.Name = "terminal")[j]).ID,
            Output := (w.combinedOutput (h.countP Event.isExecuteCommand + j)
              ((firstRun.RequiredAction.SubmitToolOutputs.ToolCalls.filter
                fun c => c.Function.Name = "terminal")[j]).Function.Arguments.Command).1 } := by
  have hcount : List.countP Event.isExecuteCommand (h ++ [Event.listRuns thread.ID runsPage]) =
      List.countP Event.isExecuteCommand h := by
    simp [List.countP_append, List.countP_cons, Event.isExecuteCommand]
  obtain ⟨outs, e1, e2, e3⟩ := collectToolOutputs_ok w
    firstRun.RequiredAction.SubmitToolOutputs.ToolCalls []
    (h ++ [Event.listRuns thread.ID runsPage]) (by rw [hcount]; exact hok)
  rw [hcount] at e3
  rw [List.nil_append] at e1
  have hnb : ¬ (StatusRequiresAction = StatusQueued ∨ StatusRequiresAction = StatusInProgress ∨
      StatusRequiresAction = StatusCancelling) := by decide
  have hturn := turn_first_run w thread pollFuel h resp firstRun rest hl hd
  have hstat : handleStatus w thread pollFuel firstRun (h ++ [Event.listRuns thread.ID runsPage]) =
      match submitToolOutputsToRun w thread.ID firstRun.ID outs
        (h ++ [Event.listRuns thread.ID runsPage] ++
          ((firstRun.RequiredAction.SubmitToolOutputs.ToolCalls.filter
            fun c => c.Function.Name = "terminal").map
            fun c => Event.executeCommand c.Function.Arguments.Command)) with
      | (Except.error err, h2) => (Res.abort (Abort.fatal err), h2)
      | (Except.ok _, h2) => (Res.ok false, h2) := by
    simp only [handleStatus, hs, hnb, if_false, if_true, e1]
  refine ⟨outs, ?_⟩
  change turn w thread pollFuel h = (match handleStatus w thread pollFuel firstRun
    (h ++ [Event.listRuns thread.ID runsPage]) with
    | (Res.abort e, h2) => (Res.abort e, h2)
    | (Res.ok promptUser, h2) =>
      match showMessages w thread h2 with
      | (Res.abort e, h3) => (Res.abort e, h3)
      | (Res.ok _, h3) =>
        if promptUser then promptStep w thread h3 else (Res.ok Step.next, h3)) at hturn
  rw [hstat] at hturn
  simp only [submitToolOutputsToRun] at hturn
  cases hsub : w.submitToolOutputsToRun (List.countP Event.isSubmit
      (h ++ [Event.listRuns thread.ID runsPage] ++
        ((firstRun.RequiredAction.SubmitToolOutputs.ToolCalls.filter
          fun c => c.Function.Name = "terminal").map
          fun c => Event.executeCommand c.Function.Arguments.Command))) thread.ID firstRun.ID outs with
  | error err =>
    rw [hsub] at hturn
    simp only at hturn
    refine ⟨[], ?_, by simp, ?_, e2, e3⟩
    · rw [hturn]; simp
    · intro command e; rw [hturn]; simp
  | ok r =>
    rw [hsub] at hturn
    simp only at hturn
    obtain ⟨lines, hs1, hs2⟩ := showMessages_events w thread
      (h ++ [Event.listRuns thread.ID runsPage] ++
        ((firstRun.RequiredAction.SubmitToolOutputs.ToolCalls.filter
          fun c => c.Function.Name = "terminal").map
          fun c => Event.executeCommand c.Function.Arguments.Command) ++
        [Event.submitToolOutputsToRun thread.ID firstRun.ID outs])
    have hres : ∀ command e, (showMessages w thread
        (h ++ [Event.listRuns thread.ID runsPage] ++
          ((firstRun.RequiredAction.SubmitToolOutputs.ToolCalls.filter
            fun c => c.Function.Name = "terminal").map
            fun c => Event.executeCommand c.Function.Arguments.Command) ++
          [Event.submitToolOutputsToRun thread.ID firstRun.ID outs])).1 ≠
        Res.abort (Abort.fatalCommand command e) :=
      fun command e => showMessages_not_fatalCommand w thread _ command e
    cases hsm : showMessages w thread
        (h ++ [Event.listRuns thread.ID runsPage] ++
          ((firstRun.RequiredAction.SubmitToolOutputs.ToolCalls.filter
            fun c => c.Function.Name = "terminal").map
            fun c => Event.executeCommand c.Function.Arguments.Command) ++
          [Event.submitToolOutputsToRun thread.ID firstRun.ID outs]) with
    | mk r3 h3 =>
      rw [hsm] at hs1 hturn hres
      simp only at hs1 hres
      refine ⟨Event.listMessages thread.ID messagesPage :: lines, ?_, ?_, ?_, e2, e3⟩
      · rw [hturn]
        cases r3 <;> simp [hs1, messagesPage]
      · intro e he
        simp at he
        rcases he with rfl | he
        · rfl
        · exact isRenderEvent_of_isColorPrint e (hs2 e he)
      · intro command e
        rw [hturn]
        cases r3 with
        | abort a => simpa using hres command e
        | ok u => simp

theorem countP_executeCommand_map {q : Event → Bool} (l : List RunToolCallObject)
    (hq : ∀ command, q (Event.executeCommand command) = false) :
    (l.map fun c => Event.executeCommand c.Function.Arguments.Command).countP q = 0 := by
  rw [List.countP_eq_zero]
  intro e he
  simp at he
  obtain ⟨c, _, rfl⟩ := he
  simp [hq]

/-- C1, as amended. A turn whose first-fetched run has the status `requires_action`, and
in which every command of a recognised tool call (function name `terminal`) succeeds,
issues exactly one `submitToolOutputsToRun` request for that run, after the commands and
before the messages are listed, and does not fetch the run again. The batch has one
record per recognised call, in the order of the calls: the record answers with the
identifier of its call and with the text the executor returned for the command of that
call; calls with another function name contribute nothing. The identifiers of the batch
are pairwise distinct whenever those of the recognised calls are. -/
theorem tool_outputs_submitted_once (w : World) (thread : AiThread) (pollFuel : Nat)
    (h : Trace) (resp : ListRunsResponse) (firstRun : Run) (rest : List Run)
    (hl : w.listRuns (h.countP Event.isListRuns) thread.ID runsPage = Except.ok resp)
    (hd : resp.Data = firstRun :: rest)
    (hs : firstRun.Status = StatusRequiresAction)
    (hok : ∀ j (hj : j < (firstRun.RequiredAction.SubmitToolOutputs.ToolCalls.filter
        fun c => c.Function.Name = "terminal").length),
      (w.combinedOutput (h.countP Event.isExecuteCommand + j)
        ((firstRun.RequiredAction.SubmitToolOutputs.ToolCalls.filter
          fun c => c.Function.Name = "terminal")[j]).Function.Arguments.Command).2 = none) :
    ∃ (outputs : List ToolOutput) (tail : Trace),
      (turn w thread pollFuel h).2 =
        h ++ [Event.listRuns thread.ID runsPage] ++
          ((firstRun.RequiredAction.SubmitToolOutputs.ToolCalls.filter
            fun c => c.Function.Name = "terminal").map
            fun c => Event.executeCommand c.Function.Arguments.Command) ++
          [Event.submitToolOutputsToRun thread.ID firstRun.ID outputs] ++ tail ∧
      (∀ e ∈ tail, e.isRenderEvent = true) ∧
      (emitted h (turn w thread pollFuel h).2).countP Event.isSubmit = 1 ∧
      (emitted h (turn w thread pollFuel h).2).countP Event.isGetRun = 0 ∧
      outputs.length = firstRun.RequiredAction.SubmitToolOutputs.ToolCalls.countP
        (fun c => c.Function.Name = "terminal") ∧
      outputs.map ToolOutput.ToolCallID =
        (firstRun.RequiredAction.SubmitToolOutputs.ToolCalls.filter
          fun c => c.Function.Name = "terminal").map RunToolCallObject.ID ∧
      (∀ j (hj : j < outputs.length)
        (hj2 : j < (firstRun.RequiredAction.SubmitToolOutputs.ToolCalls.filter
          fun c => c.Function.Name = "terminal").length),
        outputs[j].Output = (w.combinedOutput (h.countP Event.isExecuteCommand + j)
          ((firstRun.RequiredAction.SubmitToolOutputs.ToolCalls.filter
            fun c => c.Function.Name = "terminal")[j]).Function.Arguments.Command).1) ∧
      (((firstRun.RequiredAction.SubmitToolOutputs.ToolCalls.filter
          fun c => c.Function.Name = "terminal").map RunToolCallObject.ID).Nodup →
        (outputs.map ToolOutput.ToolCallID).Nodup) := by
  obtain ⟨outputs, tail, h1, h2, _, h4, h5⟩ :=
    turn_requires_action_ok w thread pollFuel h resp firstRun rest hl hd hs hok
  have hids : outputs.map ToolOutput.ToolCallID =
      (firstRun.RequiredAction.SubmitToolOutputs.ToolCalls.filter
        fun c => c.Function.Name = "terminal").map RunToolCallObject.ID := by
    apply List.ext_getElem
    · simp [h4]
    · intro j hj1 hj2
      simp only [List.length_map] at hj1 hj2
      simp only [List.getElem_map]
      rw [h5 j hj1 hj2]
  have htail : ∀ q : Event → Bool, (∀ e, e.isRenderEvent = true → q e = false) →
      tail.countP q = 0 := fun q hq => countP_eq_zero_of_forall h2 hq
  have hem : emitted h (turn w thread pollFuel h).2 =
      [Event.listRuns thread.ID runsPage] ++
        ((firstRun.RequiredAction.SubmitToolOutputs.ToolCalls.filter
          fun c => c.Function.Name = "terminal").map
          fun c => Event.executeCommand c.Function.Arguments.Command) ++
        [Event.submitToolOutputsToRun thread.ID firstRun.ID outputs] ++ tail := by
    rw [h1]
    simp only [List.append_assoc]
    exact emitted_append h _
  refine ⟨outputs, tail, h1, h2, ?_, ?_, ?_, hids, ?_, ?_⟩
  · rw [hem]
    simp only [List.countP_append]
    rw [countP_executeCommand_map _ (fun _ => rfl),
      htail Event.isSubmit (by intro e he; cases e <;> simp_all [Event.isRenderEvent, Event.isSubmit])]
    simp [List.countP_cons, Event.isSubmit]
  · rw [hem]
    simp only [List.countP_append]
    rw [countP_executeCommand_map _ (fun _ => rfl),
      htail Event.isGetRun (by intro e he; cases e <;> simp_all [Event.isRenderEvent, Event.isGetRun])]
    simp [List.countP_cons, Event.isGetRun]
  · rw [h4, List.countP_eq_length_filter]
  · intro j hj hj2
    rw [h5 j hj hj2]
  · intro hnd
    rw [hids]
    exact hnd

/-- C1: the scenario of the specification. One call `call_1` with the command `echo hi`,
to which the executor answers `hi`: one batch with one record is submitted. -/
theorem tool_outputs_submitted_once_witness :
    turn echoWorld sampleThread 0 [] =
      (Res.ok Step.next,
        [Event.listRuns "thread_1" runsPage, Event.executeCommand "echo hi",
          Event.submitToolOutputsToRun "thread_1" "run_1"
            [{ ToolCallID := "call_1", Output := "hi\n" }],
          Event.listMessages "thread_1" messagesPage]) ∧
    ∃ (outputs : List ToolOutput) (tail : Trace),
      (turn echoWorld sampleThread 0 []).2 =
        [] ++ [Event.listRuns sampleThread.ID runsPage] ++
          (((sampleRun "requires_action"
              [sampleCall "call_1" "terminal" "echo hi"]).RequiredAction.SubmitToolOutputs.ToolCalls.filter
            fun c => c.Function.Name = "terminal").map
            fun c => Event.executeCommand c.Function.Arguments.Command) ++
          [Event.submitToolOutputsToRun sampleThread.ID
            (sampleRun "requires_action" [sampleCall "call_1" "terminal" "echo hi"]).ID outputs] ++
          tail ∧
      (∀ e ∈ tail, e.isRenderEvent = true) ∧
      (emitted [] (turn echoWorld sampleThread 0 []).2).countP Event.isSubmit = 1 ∧
      (emitted [] (turn echoWorld sampleThread 0 []).2).countP Event.isGetRun = 0 ∧
      outputs.length = (sampleRun "requires_action"
          [sampleCall "call_1" "terminal" "echo hi"]).RequiredAction.SubmitToolOutputs.ToolCalls.countP
        (fun c => c.Function.Name = "terminal") ∧
      outputs.map ToolOutput.ToolCallID =
        ((sampleRun "requires_action"
            [sampleCall "call_1" "terminal" "echo hi"]).RequiredAction.SubmitToolOutputs.ToolCalls.filter
          fun c => c.Function.Name = "terminal").map RunToolCallObject.ID ∧
      (∀ j (hj : j < outputs.length)
        (hj2 : j < ((sampleRun "requires_action"
            [sampleCall "call_1" "terminal" "echo hi"]).RequiredAction.SubmitToolOutputs.ToolCalls.filter
          fun c => c.Function.Name = "terminal").length),
        outputs[j].Output = (echoWorld.combinedOutput
          (([] : Trace).countP Event.isExecuteCommand + j)
          (((sampleRun "requires_action"
              [sampleCall "call_1" "terminal" "echo hi"]).RequiredAction.SubmitToolOutputs.ToolCalls.filter
            fun c => c.Function.Name = "terminal")[j]).Function.Arguments.Command).1) ∧
      ((((sampleRun "requires_action"
            [sampleCall "call_1" "terminal" "echo hi"]).RequiredAction.SubmitToolOutputs.ToolCalls.filter
          fun c => c.Function.Name = "terminal").map RunToolCallObject.ID).Nodup →
        (outputs.map ToolOutput.ToolCallID).Nodup) :=
  ⟨by decide,
    tool_outputs_submitted_once echoWorld sampleThread 0 []
      { Data := [sampleRun "requires_action" [sampleCall "call_1" "terminal" "echo hi"]] }
      (sampleRun "requires_action" [sampleCall "call_1" "terminal" "echo hi"]) [] rfl rfl rfl
      (fun _ _ => rfl)⟩

/-- C1 as stated fails on a payload that uses one call identifier twice: both calls are
answered, so the batch carries the identifier `call_1` twice. -/
theorem tool_outputs_duplicate_id_counterexample :
    turn twiceWorld sampleThread 0 [] =
      (Res.ok Step.next,
        [Event.listRuns "thread_1" runsPage, Event.executeCommand "echo hi",
          Event.executeCommand "echo hi",
          Event.submitToolOutputsToRun "thread_1" "run_1"
            [{ ToolCallID := "call_1", Output := "hi\n" },
              { ToolCallID := "call_1", Output := "hi\n" }],
          Event.listMessages "thread_1" messagesPage]) ∧
    ¬ (([{ ToolCallID := "call_1", Output := "hi\n" },
        { ToolCallID := "call_1", Output := "hi\n" }] : List ToolOutput).map
          ToolOutput.ToolCallID).Nodup :=
  ⟨by decide, by decide⟩

/-- C2, as amended. In a turn on a run that requires action, the session is aborted by
command execution exactly when `executeCommand` returns an error for the command of a
recognised tool call, whatever the error: a process that ran and exited with a non-zero
status as much as a process that could not be started. The first such command ends the
turn with `log.Fatalf`, the later commands are not run and no batch is submitted. When
every recognised command returns no error (exit status 0), the turn is not aborted by
command execution and submits the batch, one record per recognised call, each holding
the captured text. -/
theorem command_error_is_fatal (w : World) (thread : AiThread) (pollFuel : Nat)
    (h : Trace) (resp : ListRunsResponse) (firstRun : Run) (rest : List Run)
    (hl : w.listRuns (h.countP Event.isListRuns) thread.ID runsPage = Except.ok resp)
    (hd : resp.Data = firstRun :: rest)
    (hs : firstRun.Status = StatusRequiresAction) :
    (∀ (j : Nat) (err : Error)
      (hj : j < (firstRun.RequiredAction.SubmitToolOutputs.ToolCalls.filter
        fun c => c.Function.Name = "terminal").length),
      (∀ i (hi : i < (firstRun.RequiredAction.SubmitToolOutputs.ToolCalls.filter
          fun c => c.Function.Name = "terminal").length), i < j →
        (w.combinedOutput (h.countP Event.isExecuteCommand + i)
          ((firstRun.RequiredAction.SubmitToolOutputs.ToolCalls.filter
            fun c => c.Function.Name = "terminal")[i]).Function.Arguments.Command).2 = none) →
      (w.combinedOutput (h.countP Event.isExecuteCommand + j)
        ((firstRun.RequiredAction.SubmitToolOutputs.ToolCalls.filter
          fun c => c.Function.Name = "terminal")[j]).Function.Arguments.Command).2 = some err →
      turn w thread pollFuel h =
        (Res.abort (Abort.fatalCommand
          ((firstRun.RequiredAction.SubmitToolOutputs.ToolCalls.filter
            fun c => c.Function.Name = "terminal")[j]).Function.Arguments.Command err),
          h ++ [Event.listRuns thread.ID runsPage] ++
            (((firstRun.RequiredAction.SubmitToolOutputs.ToolCalls.filter
              fun c => c.Function.Name = "terminal").take (j + 1)).map
              fun c => Event.executeCommand c.Function.Arguments.Command)) ∧
      (emitted h (turn w thread pollFuel h).2).countP Event.isSubmit = 0) ∧
    ((∀ j (hj : j < (firstRun.RequiredAction.SubmitToolOutputs.ToolCalls.filter
        fun c => c.Function.Name = "terminal").length),
      (w.combinedOutput (h.countP Event.isExecuteCommand + j)
        ((firstRun.RequiredAction.SubmitToolOutputs.ToolCalls.filter
          fun c => c.Function.Name = "terminal")[j]).Function.Arguments.Command).2 = none) →
      (∀ command err,
        (turn w thread pollFuel h).1 ≠ Res.abort (Abort.fatalCommand command err)) ∧
      ∃ outputs : List ToolOutput,
        Event.submitToolOutputsToRun thread.ID firstRun.ID outputs ∈
          emitted h (turn w thread pollFuel h).2 ∧
        outputs.length = (firstRun.RequiredAction.SubmitToolOutputs.ToolCalls.filter
          fun c => c.Function.Name = "terminal").length ∧
        ∀ j (hj : j < outputs.length)
          (hj2 : j < (firstRun.RequiredAction.SubmitToolOutputs.ToolCalls.filter
            fun c => c.Function.Name = "terminal").length),
          outputs[j] =
            { ToolCallID := ((firstRun.RequiredAction.SubmitToolOutputs.ToolCalls.filter
                fun c => c.Function.Name = "terminal")[j]).ID,
              Output := (w.combinedOutput (h.countP Event.isExecuteCommand + j)
                ((firstRun.RequiredAction.SubmitToolOutputs.ToolCalls.filter
                  fun c => c.Function.Name = "terminal")[j]).Function.Arguments.Command).1 }) := by
  constructor
  · intro j err hj hprev herr
    have hcount : List.countP Event.isExecuteCommand (h ++ [Event.listRuns thread.ID runsPage]) =
        List.countP Event.isExecuteCommand h := by
      simp [List.countP_append, List.countP_cons, Event.isExecuteCommand]
    have hcol := collectToolOutputs_fail w firstRun.RequiredAction.SubmitToolOutputs.ToolCalls []
      (h ++ [Event.listRuns thread.ID runsPage]) j err hj
      (by rw [hcount]; exact hprev) (by rw [hcount]; exact herr)
    have hnb : ¬ (StatusRequiresAction = StatusQueued ∨ StatusRequiresAction = StatusInProgress ∨
        StatusRequiresAction = StatusCancelling) := by decide
    have hstat : handleStatus w thread pollFuel firstRun
        (h ++ [Event.listRuns thread.ID runsPage]) =
        (Res.abort (Abort.fatalCommand
          ((firstRun.RequiredAction.SubmitToolOutputs.ToolCalls.filter
            fun c => c.Function.Name = "terminal")[j]).Function.Arguments.Command err),
          h ++ [Event.listRuns thread.ID runsPage] ++
            (((firstRun.RequiredAction.SubmitToolOutputs.ToolCalls.filter
              fun c => c.Function.Name = "terminal").take (j + 1)).map
              fun c => Event.executeCommand c.Function.Arguments.Command)) := by
      simp only [handleStatus, hs, hnb, if_false, if_true, hcol]
    have hturn := turn_first_run w thread pollFuel h resp firstRun rest hl hd
    change turn w thread pollFuel h = (match handleStatus w thread pollFuel firstRun
      (h ++ [Event.listRuns thread.ID runsPage]) with
      | (Res.abort e, h2) => (Res.abort e, h2)
      | (Res.ok promptUser, h2) =>
        match showMessages w thread h2 with
        | (Res.abort e, h3) => (Res.abort e, h3)
        | (Res.ok _, h3) =>
          if promptUser then promptStep w thread h3 else (Res.ok Step.next, h3)) at hturn
    rw [hstat] at hturn
    simp only at hturn
    refine ⟨hturn, ?_⟩
    rw [hturn]
    simp only [List.append_assoc]
    rw [emitted_append, List.countP_append, countP_executeCommand_map _ (fun _ => rfl)]
    simp [List.countP_cons, Event.isSubmit]
  · intro hok
    obtain ⟨outputs, tail, h1, _, h3, h4, h5⟩ :=
      turn_requires_action_ok w thread pollFuel h resp firstRun rest hl hd hs hok
    refine ⟨h3, outputs, ?_, h4, h5⟩
    rw [h1]
    simp only [List.append_assoc]
    rw [emitted_append]
    simp

/-- C2 as stated fails: the command `ls /nonexistent` runs and exits with status 2, and
the turn ends in `log.Fatalf` right after it, without any submission. -/
theorem nonzero_exit_is_fatal_counterexample :
    failingWorld.combinedOutput 0 "ls /nonexistent" =
      ("ls: cannot access \x27/nonexistent\x27: No such file or directory\n",
        some (Error.exitError 2)) ∧
    turn failingWorld sampleThread 0 [] =
      (Res.abort (Abort.fatalCommand "ls /nonexistent" (Error.exitError 2)),
        [Event.listRuns "thread_1" runsPage, Event.executeCommand "ls /nonexistent"]) ∧
    (chatLoop failingWorld sampleThread 0 5 []).1 =
      Res.abort (Abort.fatalCommand "ls /nonexistent" (Error.exitError 2)) :=
  ⟨rfl, by decide, by decide⟩

/-- C2, as amended, on the run of `failingWorld`, whose only command exits with status 2,
and on the run of `echoWorld`, whose only command exits with status 0. -/
theorem command_error_is_fatal_witness :
    (turn failingWorld sampleThread 0 [] =
        (Res.abort (Abort.fatalCommand "ls /nonexistent" (Error.exitError 2)),
          [Event.listRuns "thread_1" runsPage, Event.executeCommand "ls /nonexistent"]) ∧
      (emitted [] (turn failingWorld sampleThread 0 []).2).countP Event.isSubmit = 0) ∧
    (∀ command err,
      (turn echoWorld sampleThread 0 []).1 ≠ Res.abort (Abort.fatalCommand command err)) :=
  ⟨(command_error_is_fatal failingWorld sampleThread 0 []
      { Data := [sampleRun "requires_action"
          [sampleCall "call_1" "terminal" "ls /nonexistent"]] }
      (sampleRun "requires_action" [sampleCall "call_1" "terminal" "ls /nonexistent"]) []
      rfl rfl rfl).1 0 (Error.exitError 2) (by decide)
      (fun i _ hi => absurd hi (Nat.not_lt_zero i)) rfl,
    ((command_error_is_fatal echoWorld sampleThread 0 []
      { Data := [sampleRun "requires_action" [sampleCall "call_1" "terminal" "echo hi"]] }
      (sampleRun "requires_action" [sampleCall "call_1" "terminal" "echo hi"]) []
      rfl rfl rfl).2 (fun _ _ => rfl)).1⟩

/-! ## When the operator is prompted (C4) -/

theorem readString_mem_promptStep (w : World) (thread : AiThread) (h pre : Trace) :
    Event.readString ∈ emitted h (promptStep w thread (h ++ pre)).2 := by
  obtain ⟨evs, he⟩ := promptStep_events w thread (h ++ pre)
  rw [he]
  simp only [List.append_assoc]
  rw [emitted_append]
  simp

theorem readString_not_mem_of_quiet (pre : Trace) (hpre : ∀ e ∈ pre, e.isOperatorEvent = false) :
    Event.readString ∉ pre := by
  intro hm
  have := hpre _ hm
  exact Bool.noConfusion this

/-- A turn reads the line of the operator exactly when it reaches step 4 with `promptUser` set. -/
theorem turn_prompted (w : World) (thread : AiThread) (pollFuel : Nat) (h : Trace)
    (hp : Event.readString ∈ emitted h (turn w thread pollFuel h).2) :
    ∃ pre, (∀ e ∈ pre, e.isOperatorEvent = false) ∧
      turn w thread pollFuel h = promptStep w thread (h ++ pre) ∧ PromptCond w thread h := by
  obtain ⟨pre, hpre, hc | ⟨h2, _, _⟩⟩ := turn_shape w thread pollFuel h
  · exact ⟨pre, hpre, hc⟩
  · rw [h2, emitted_append] at hp
    exact absurd hp (readString_not_mem_of_quiet pre hpre)

/-- C4, as amended. Whether a turn prompts the operator is decided by the answer of
`listRuns` at the start of the turn, not by the status at which polling stops: a turn
that prompts has found no run or a run listed as completed, and a turn that is not
aborted and has found no run or a run listed as completed prompts. A run listed with any
other status (busy, also when the poll loop then sees it completed, `requires_action`,
`cancelled`, `failed`, `expired`) never leads to a prompt in that turn. When a listed run
leads to the prompt, the messages are listed and printed first. -/
theorem prompt_iff_listed_completed (w : World) (thread : AiThread) (pollFuel : Nat)
    (h : Trace) (resp : ListRunsResponse)
    (hl : w.listRuns (h.countP Event.isListRuns) thread.ID runsPage = Except.ok resp) :
    (Event.readString ∈ emitted h (turn w thread pollFuel h).2 →
      (resp.Data = [] ∨ ∃ r rest, resp.Data = r :: rest ∧ r.Status = StatusCompleted)) ∧
    ((∃ s, (turn w thread pollFuel h).1 = Res.ok s) →
      (resp.Data = [] ∨ ∃ r rest, resp.Data = r :: rest ∧ r.Status = StatusCompleted) →
      Event.readString ∈ emitted h (turn w thread pollFuel h).2) ∧
    (∀ r rest, resp.Data = r :: rest → r.Status ≠ StatusCompleted →
      Event.readString ∉ emitted h (turn w thread pollFuel h).2) ∧
    (∀ r rest, resp.Data = r :: rest →
      Event.readString ∈ emitted h (turn w thread pollFuel h).2 →
      ∃ lines post, (∀ e ∈ lines, e.isColorPrint = true) ∧
        (turn w thread pollFuel h).2 =
          h ++ [Event.listRuns thread.ID runsPage, Event.listMessages thread.ID messagesPage] ++
            lines ++ [Event.print "You: ", Event.readString] ++ post) := by
  have hcond : PromptCond w thread h →
      (resp.Data = [] ∨ ∃ r rest, resp.Data = r :: rest ∧ r.Status = StatusCompleted) := by
    intro hc
    obtain ⟨resp2, he, hc⟩ := hc
    have he2 : Except.ok resp = Except.ok resp2 := hl.symm.trans he
    injection he2 with he2
    rw [he2]
    exact hc
  have h1 : Event.readString ∈ emitted h (turn w thread pollFuel h).2 →
      (resp.Data = [] ∨ ∃ r rest, resp.Data = r :: rest ∧ r.Status = StatusCompleted) := by
    intro hp
    obtain ⟨pre, _, _, hc⟩ := turn_prompted w thread pollFuel h hp
    exact hcond hc
  refine ⟨h1, ?_, ?_, ?_⟩
  · intro hok hc
    obtain ⟨pre, hpre, ⟨ht, _⟩ | ⟨_, _, hn⟩⟩ := turn_shape w thread pollFuel h
    · rw [ht]
      exact readString_mem_promptStep w thread h pre
    · exact absurd ⟨resp, hl, hc⟩ (hn hok)
  · intro r rest hd hs hp
    rcases h1 hp with hnil | ⟨r2, rest2, hd2, hs2⟩
    · rw [hd] at hnil; exact List.noConfusion hnil
    · rw [hd] at hd2
      injection hd2 with e1 _
      rw [← e1] at hs2
      exact hs hs2
  · intro r rest hd hp
    have hs : r.Status = StatusCompleted := by
      rcases h1 hp with hnil | ⟨r2, rest2, hd2, hs2⟩
      · rw [hd] at hnil; exact List.noConfusion hnil
      · rw [hd] at hd2
        injection hd2 with e1 _
        rw [e1]
        exact hs2
    have hnb : ¬ (StatusCompleted = StatusQueued ∨ StatusCompleted = StatusInProgress ∨
        StatusCompleted = StatusCancelling) := by decide
    have hnr : ¬ StatusCompleted = StatusRequiresAction := by decide
    have hstat : handleStatus w thread pollFuel r (h ++ [Event.listRuns thread.ID runsPage]) =
        (Res.ok true, h ++ [Event.listRuns thread.ID runsPage]) := by
      simp only [handleStatus, hs, hnb, hnr, if_false, if_true]
    have hturn := turn_first_run w thread pollFuel h resp r rest hl hd
    change turn w thread pollFuel h = (match handleStatus w thread pollFuel r
      (h ++ [Event.listRuns thread.ID runsPage]) with
      | (Res.abort e, h2) => (Res.abort e, h2)
      | (Res.ok promptUser, h2) =>
        match showMessages w thread h2 with
        | (Res.abort e, h3) => (Res.abort e, h3)
        | (Res.ok _, h3) =>
          if promptUser then promptStep w thread h3 else (Res.ok Step.next, h3)) at hturn
    rw [hstat] at hturn
    simp only at hturn
    obtain ⟨lines, hs1, hs2⟩ := showMessages_events w thread
      (h ++ [Event.listRuns thread.ID runsPage])
    cases hsm : showMessages w thread (h ++ [Event.listRuns thread.ID runsPage]) with
    | mk r3 h3 =>
      rw [hsm] at hs1 hturn
      simp only at hs1
      subst hs1
      cases r3 with
      | abort a =>
        simp only at hturn
        rw [hturn] at hp
        simp only [List.append_assoc] at hp
        rw [emitted_append] at hp
        simp at hp
        have := hs2 _ hp
        exact Bool.noConfusion this
      | ok u =>
        simp only [if_true] at hturn
        obtain ⟨post, hpost⟩ := promptStep_events w thread
          (h ++ [Event.listRuns thread.ID runsPage] ++
            Event.listMessages thread.ID { Limit := 20, Order := Desc, After := "", Before := "" }
              :: lines)
        refine ⟨lines, post, hs2, ?_⟩
        rw [hturn, hpost]
        simp [messagesPage]

/-- C4 as stated fails on the status sequence `queued`, `in_progress`, `completed`: the
poll loop stops on the completed run, the messages are listed, and the turn ends
without a prompt. -/
theorem poll_until_completed_no_prompt_counterexample :
    pollLoop pollingWorld "thread_1" 2 (sampleRun "queued" [])
        [Event.listRuns "thread_1" runsPage] =
      (Res.ok (sampleRun "completed" []),
        [Event.listRuns "thread_1" runsPage,
          Event.print "Polling: queued\n", Event.sleep 1, Event.getRun "thread_1" "run_1",
          Event.print "Polling: in_progress\n", Event.sleep 1,
          Event.getRun "thread_1" "run_1"]) ∧
    turn pollingWorld sampleThread 2 [] =
      (Res.ok Step.next,
        [Event.listRuns "thread_1" runsPage,
          Event.print "Polling: queued\n", Event.sleep 1, Event.getRun "thread_1" "run_1",
          Event.print "Polling: in_progress\n", Event.sleep 1, Event.getRun "thread_1" "run_1",
          Event.listMessages "thread_1" messagesPage]) ∧
    Event.readString ∉ emitted [] (turn pollingWorld sampleThread 2 []).2 :=
  ⟨by decide, by decide, by decide⟩

/-- C4, as amended, on a run listed as completed: the two messages are printed oldest
first, then the operator is prompted. -/
theorem prompt_iff_listed_completed_witness :
    Event.readString ∈ emitted [] (turn completedWorld sampleThread 0 []).2 ∧
    ∃ lines post, (∀ e ∈ lines, e.isColorPrint = true) ∧
      (turn completedWorld sampleThread 0 []).2 =
        [] ++ [Event.listRuns sampleThread.ID runsPage,
          Event.listMessages sampleThread.ID messagesPage] ++
          lines ++ [Event.print "You: ", Event.readString] ++ post :=
  ⟨by decide,
    (prompt_iff_listed_completed completedWorld sampleThread 0 []
      { Data := [sampleRun "completed" []] } rfl).2.2.2 (sampleRun "completed" []) [] rfl
      (by decide)⟩

/-! ## The line of the operator (C7, C8) -/

theorem chatLoop_runTurns (w : World) (thread : AiThread) (pollFuel : Nat) (n : Nat) :
    ∀ (h h2 : Trace) (m : Nat), runTurns w thread pollFuel n h = some h2 →
      chatLoop w thread pollFuel (n + m) h = chatLoop w thread pollFuel m h2 := by
  induction n with
  | zero =>
    intro h h2 m hr
    simp only [runTurns, Option.some.injEq] at hr
    rw [Nat.zero_add, hr]
  | succ n ih =>
    intro h h2 m hr
    rw [Nat.add_right_comm]
    simp only [runTurns] at hr
    simp only [chatLoop]
    cases ht : turn w thread pollFuel h with
    | mk r h1 =>
      rw [ht] at hr
      cases r with
      | abort e => simp at hr
      | ok s =>
        cases s with
        | stop => simp at hr
        | next =>
          simp only at hr ⊢
          exact ih h1 h2 m hr

theorem countP_operator_zero {q : Event → Bool} (pre : Trace)
    (hpre : ∀ e ∈ pre, e.isOperatorEvent = false)
    (hq : ∀ e, q e = true → e.isOperatorEvent = true) : pre.countP q = 0 := by
  rw [List.countP_eq_zero]
  intro e he hqe
  have h1 := hpre e he
  rw [hq e hqe] at h1
  exact Bool.noConfusion h1

theorem isOperatorEvent_of_isCreateMessage (e : Event) (h : e.isCreateMessage = true) :
    e.isOperatorEvent = true := by
  cases e <;> simp_all [Event.isOperatorEvent, Event.isCreateMessage]

theorem isOperatorEvent_of_isCreateRun (e : Event) (h : e.isCreateRun = true) :
    e.isOperatorEvent = true := by
  cases e <;> simp_all [Event.isOperatorEvent, Event.isCreateRun]

theorem isOperatorEvent_of_isReadString (e : Event) (h : e.isReadString = true) :
    e.isOperatorEvent = true := by
  cases e <;> simp_all [Event.isOperatorEvent, Event.isReadString]

/-- C7. Take a session that has loaded its thread and gone through `n` turns, and whose
next turn prompts the operator and reads a line that is `exit` once trimmed. That turn
ends the loop right after the read: it emits no `createMessage` and no `createRun`, the
read is the last event of the session, and `startChat` returns `nil`. -/
theorem exit_ends_session (w : World) (fs fs1 : FS) (pollFuel n m : Nat) (h0 h1 h : Trace)
    (thread : AiThread)
    (hthread : getThread w fs (h0 ++ [Event.print banner]) = (Res.ok (thread, none), fs1, h1))
    (hturns : runTurns w thread pollFuel n h1 = some h)
    (hp : Event.readString ∈ emitted h (turn w thread pollFuel h).2)
    (hx : TrimSpace (w.readString (h.countP Event.isReadString)) = "exit") :
    ∃ pre : Trace,
      (∀ e ∈ pre, e.isOperatorEvent = false) ∧
      turn w thread pollFuel h =
        (Res.ok Step.stop, h ++ pre ++ [Event.print "You: ", Event.readString]) ∧
      (emitted h (turn w thread pollFuel h).2).countP Event.isCreateMessage = 0 ∧
      (emitted h (turn w thread pollFuel h).2).countP Event.isCreateRun = 0 ∧
      chatLoop w thread pollFuel (m + 1) h =
        (Res.ok (), h ++ pre ++ [Event.print "You: ", Event.readString]) ∧
      startChat w fs pollFuel (n + (m + 1)) h0 =
        (Res.ok none, fs1, h ++ pre ++ [Event.print "You: ", Event.readString]) := by
  obtain ⟨pre, hpre, ht, _⟩ := turn_prompted w thread pollFuel h hp
  have hc : List.countP Event.isReadString (h ++ pre) = List.countP Event.isReadString h := by
    rw [List.countP_append, countP_operator_zero pre hpre isOperatorEvent_of_isReadString]
    rfl
  have ht2 : turn w thread pollFuel h =
      (Res.ok Step.stop, h ++ pre ++ [Event.print "You: ", Event.readString]) := by
    rw [ht, promptStep_eq, hc, if_pos hx]
  have hloop : chatLoop w thread pollFuel (m + 1) h =
      (Res.ok (), h ++ pre ++ [Event.print "You: ", Event.readString]) := by
    simp only [chatLoop, ht2]
  refine ⟨pre, hpre, ht2, ?_, ?_, hloop, ?_⟩
  · rw [ht2]
    simp only [List.append_assoc]
    rw [emitted_append, List.countP_append,
      countP_operator_zero pre hpre isOperatorEvent_of_isCreateMessage]
    simp [List.countP_cons, Event.isCreateMessage]
  · rw [ht2]
    simp only [List.append_assoc]
    rw [emitted_append, List.countP_append,
      countP_operator_zero pre hpre isOperatorEvent_of_isCreateRun]
    simp [List.countP_cons, Event.isCreateRun]
  · simp only [startChat, hthread]
    rw [chatLoop_runTurns w thread pollFuel n h1 h (m + 1) hturns, hloop]

/-- C7 on a first session: the thread is created and stored, the first turn posts `hi`,
and in the second turn the operator types `exit`. -/
theorem exit_ends_session_witness :
    getThread chattyWorld emptyStore ([] ++ [Event.print banner]) =
      (Res.ok (sampleThread, none), loadedStore, loadedTrace) ∧
    runTurns chattyWorld sampleThread 0 1 loadedTrace = some chattyTrace ∧
    TrimSpace (chattyWorld.readString (chattyTrace.countP Event.isReadString)) = "exit" ∧
    ∃ pre : Trace,
      (∀ e ∈ pre, e.isOperatorEvent = false) ∧
      turn chattyWorld sampleThread 0 chattyTrace =
        (Res.ok Step.stop, chattyTrace ++ pre ++ [Event.print "You: ", Event.readString]) ∧
      (emitted chattyTrace (turn chattyWorld sampleThread 0 chattyTrace).2).countP
        Event.isCreateMessage = 0 ∧
      (emitted chattyTrace (turn chattyWorld sampleThread 0 chattyTrace).2).countP
        Event.isCreateRun = 0 ∧
      chatLoop chattyWorld sampleThread 0 (0 + 1) chattyTrace =
        (Res.ok (), chattyTrace ++ pre ++ [Event.print "You: ", Event.readString]) ∧
      startChat chattyWorld emptyStore 0 (1 + (0 + 1)) [] =
        (Res.ok none, loadedStore,
          chattyTrace ++ pre ++ [Event.print "You: ", Event.readString]) :=
  ⟨by decide, by decide, by decide,
    exit_ends_session chattyWorld emptyStore loadedStore 0 1 0 [] loadedTrace chattyTrace
      sampleThread (by decide) (by decide) (by decide) (by decide)⟩

/-- C8. A turn that prompts the operator and reads a line whose trimmed text `u` is not
`exit` issues, right after the read, one `createMessage` call with role `user` and
content `u` on the thread and, that call having succeeded, right after it one
`createRun` call on the thread for `assistantId`; these are the only `createMessage` and
`createRun` calls of the turn (the code does not look at whether `u` is empty). A turn
that does not prompt the operator issues no `createMessage` and no `createRun` call. -/
theorem prompt_posts_message_then_run (w : World) (thread : AiThread) (pollFuel : Nat)
    (h : Trace) :
    (∀ posted : MessageObject,
      Event.readString ∈ emitted h (turn w thread pollFuel h).2 →
      TrimSpace (w.readString (h.countP Event.isReadString)) ≠ "exit" →
      w.createMessage (h.countP Event.isCreateMessage) thread.ID "user"
        (TrimSpace (w.readString (h.countP Event.isReadString))) = Except.ok posted →
      ∃ pre : Trace,
        (∀ e ∈ pre, e.isOperatorEvent = false) ∧
        (turn w thread pollFuel h).2 =
          h ++ pre ++ [Event.print "You: ", Event.readString,
            Event.createMessage thread.ID "user"
              (TrimSpace (w.readString (h.countP Event.isReadString))),
            Event.createRun thread.ID assistantId] ∧
        (emitted h (turn w thread pollFuel h).2).countP Event.isCreateMessage = 1 ∧
        (emitted h (turn w thread pollFuel h).2).countP Event.isCreateRun = 1) ∧
    (Event.readString ∉ emitted h (turn w thread pollFuel h).2 →
      (emitted h (turn w thread pollFuel h).2).countP Event.isCreateMessage = 0 ∧
      (emitted h (turn w thread pollFuel h).2).countP Event.isCreateRun = 0) := by
  constructor
  · intro posted hp hx hm
    obtain ⟨pre, hpre, ht, _⟩ := turn_prompted w thread pollFuel h hp
    have hc1 : List.countP Event.isReadString (h ++ pre) = List.countP Event.isReadString h := by
      rw [List.countP_append, countP_operator_zero pre hpre isOperatorEvent_of_isReadString]
      rfl
    have hc2 : List.countP Event.isCreateMessage (h ++ pre) =
        List.countP Event.isCreateMessage h := by
      rw [List.countP_append, countP_operator_zero pre hpre isOperatorEvent_of_isCreateMessage]
      rfl
    have ht2 : (turn w thread pollFuel h).2 =
        h ++ pre ++ [Event.print "You: ", Event.readString,
          Event.createMessage thread.ID "user"
            (TrimSpace (w.readString (h.countP Event.isReadString))),
          Event.createRun thread.ID assistantId] := by
      rw [ht, promptStep_eq, hc1, hc2, if_neg hx, hm]
      simp only
      cases w.createRun (List.countP Event.isCreateRun (h ++ pre)) thread.ID assistantId <;> rfl
    refine ⟨pre, hpre, ht2, ?_, ?_⟩
    · rw [ht2]
      simp only [List.append_assoc]
      rw [emitted_append, List.countP_append,
        countP_operator_zero pre hpre isOperatorEvent_of_isCreateMessage]
      simp [List.countP_cons, Event.isCreateMessage]
    · rw [ht2]
      simp only [List.append_assoc]
      rw [emitted_append, List.countP_append,
        countP_operator_zero pre hpre isOperatorEvent_of_isCreateRun]
      simp [List.countP_cons, Event.isCreateRun]
  · intro hnp
    obtain ⟨pre, hpre, ⟨ht, _⟩ | ⟨h2, _, _⟩⟩ := turn_shape w thread pollFuel h
    · rw [ht] at hnp
      exact absurd (readString_mem_promptStep w thread h pre) hnp
    · rw [h2, emitted_append]
      exact ⟨countP_operator_zero pre hpre isOperatorEvent_of_isCreateMessage,
        countP_operator_zero pre hpre isOperatorEvent_of_isCreateRun⟩

/-- C8 on two turns: one that prompts and reads `how are you?` between blanks, and one
on a failed run, which does not prompt. -/
theorem prompt_posts_message_then_run_witness :
    turn completedWorld sampleThread 0 [] =
      (Res.ok Step.next,
        [Event.listRuns "thread_1" runsPage, Event.listMessages "thread_1" messagesPage,
          Event.colorPrint Color.yellow "You: hi\n",
          Event.colorPrint Color.cyan "Assistant: Hello!\n",
          Event.print "You: ", Event.readString,
          Event.createMessage "thread_1" "user" "how are you?",
          Event.createRun "thread_1" "asst_zE0QYAfDkGC9igpaDd0GaSx6"]) ∧
    (∃ pre : Trace,
      (∀ e ∈ pre, e.isOperatorEvent = false) ∧
      (turn completedWorld sampleThread 0 []).2 =
        [] ++ pre ++ [Event.print "You: ", Event.readString,
          Event.createMessage sampleThread.ID "user"
            (TrimSpace (completedWorld.readString (([] : Trace).countP Event.isReadString))),
          Event.createRun sampleThread.ID assistantId] ∧
      (emitted [] (turn completedWorld sampleThread 0 []).2).countP Event.isCreateMessage = 1 ∧
      (emitted [] (turn completedWorld sampleThread 0 []).2).countP Event.isCreateRun = 1) ∧
    ((emitted [] (turn failedWorld sampleThread 0 []).2).countP Event.isCreateMessage = 0 ∧
      (emitted [] (turn failedWorld sampleThread 0 []).2).countP Event.isCreateRun = 0) :=
  ⟨by decide,
    (prompt_posts_message_then_run completedWorld sampleThread 0 []).1
      { ID := "msg_new", CreatedAt := 1700000003, ThreadID := "thread_1", Role := "user",
        Content := [{ Typ := "text", Text := { Value := "how are you?" } }] }
      (by decide) (by decide) rfl,
    (prompt_posts_message_then_run failedWorld sampleThread 0 []).2 (by decide)⟩

theorem isListRunsOrRender_append (a b : Trace)
    (ha : ∀ e ∈ a, e.isListRuns = true ∨ e.isRenderEvent = true)
    (hb : ∀ e ∈ b, e.isListRuns = true ∨ e.isRenderEvent = true) :
    ∀ e ∈ a ++ b, e.isListRuns = true ∨ e.isRenderEvent = true := by
  intro e he
  rw [List.mem_append] at he
  rcases he with he | he
  · exact ha e he
  · exact hb e he

/-- A turn on a listed run whose status has no case in the `switch`. -/
theorem turn_other_status (w : World) (thread : AiThread) (pollFuel : Nat) (h : Trace)
    (resp : ListRunsResponse) (run : Run) (rest : List Run)
    (hq : run.Status ≠ StatusQueued) (hi : run.Status ≠ StatusInProgress)
    (hc : run.Status ≠ StatusCancelling) (hr : run.Status ≠ StatusRequiresAction)
    (hcomp : run.Status ≠ StatusCompleted)
    (hl : w.listRuns (h.countP Event.isListRuns) thread.ID runsPage = Except.ok resp)
    (hd : resp.Data = run :: rest) :
    turn w thread pollFuel h =
      match showMessages w thread (h ++ [Event.listRuns thread.ID runsPage]) with
      | (Res.abort e, h3) => (Res.abort e, h3)
      | (Res.ok _, h3) => (Res.ok Step.next, h3) := by
  have hnb : ¬ (run.Status = StatusQueued ∨ run.Status = StatusInProgress ∨
      run.Status = StatusCancelling) := by
    intro hb
    rcases hb with hb | hb | hb
    · exact hq hb
    · exact hi hb
    · exact hc hb
  have hstat : handleStatus w thread pollFuel run (h ++ [Event.listRuns thread.ID runsPage]) =
      (Res.ok false, h ++ [Event.listRuns thread.ID runsPage]) := by
    simp only [handleStatus, hnb, hr, hcomp, if_false]
  have hturn := turn_first_run w thread pollFuel h resp run rest hl hd
  change turn w thread pollFuel h = (match handleStatus w thread pollFuel run
    (h ++ [Event.listRuns thread.ID runsPage]) with
    | (Res.abort e, h2) => (Res.abort e, h2)
    | (Res.ok promptUser, h2) =>
      match showMessages w thread h2 with
      | (Res.abort e, h3) => (Res.abort e, h3)
      | (Res.ok _, h3) =>
        if promptUser then promptStep w thread h3 else (Res.ok Step.next, h3)) at hturn
  rw [hstat] at hturn
  rw [hturn]
  simp only [Bool.false_eq_true, if_false]

/-! ## Rendering (C6) -/

theorem role_distinct : ¬ RoleAssistant = RoleSystem ∧ ¬ RoleUser = RoleSystem ∧
    ¬ RoleUser = RoleAssistant := by decide

theorem renderMessage_ok (m : Message) (h : Trace)
    (hcontent : (m.Role = RoleSystem ∨ m.Role = RoleAssistant ∨ m.Role = RoleUser) →
      m.Content ≠ []) :
    renderMessage m h = (Res.ok (), h ++ (renderedLine m).toList) := by
  unfold renderMessage renderedLine
  by_cases h1 : m.Role = RoleSystem
  · cases hc : m.Content with
    | nil => exact absurd hc (hcontent (Or.inl h1))
    | cons seg segs => simp [h1]
  · by_cases h2 : m.Role = RoleAssistant
    · cases hc : m.Content with
      | nil => exact absurd hc (hcontent (Or.inr (Or.inl h2)))
      | cons seg segs => simp [h2, role_distinct.1]
    · by_cases h3 : m.Role = RoleUser
      · cases hc : m.Content with
        | nil => exact absurd hc (hcontent (Or.inr (Or.inr h3)))
        | cons seg segs => simp [h3, role_distinct.2.1, role_distinct.2.2]
      · cases hc : m.Content with
        | nil => simp [h1, h2, h3]
        | cons seg segs => simp [h1, h2, h3]

theorem renderMessages_ok (messages : List Message) : ∀ (h : Trace),
    (∀ m ∈ messages, (m.Role = RoleSystem ∨ m.Role = RoleAssistant ∨ m.Role = RoleUser) →
      m.Content ≠ []) →
    renderMessages messages h = (Res.ok (), h ++ messages.filterMap renderedLine) := by
  induction messages with
  | nil => intro h _; simp [renderMessages]
  | cons m rest ih =>
    intro h hcontent
    simp only [renderMessages, renderMessage_ok m h (hcontent m (by simp))]
    rw [ih _ (fun m2 hm2 => hcontent m2 (by simp [hm2]))]
    cases hr : renderedLine m <;> simp [List.filterMap_cons, hr]

theorem renderedLine_isSome_iff (m : Message) (hc : m.Content ≠ []) :
    (renderedLine m).isSome = true ↔
      (m.Role = RoleSystem ∨ m.Role = RoleAssistant ∨ m.Role = RoleUser) := by
  unfold renderedLine
  cases hm : m.Content with
  | nil => exact absurd hm hc
  | cons seg segs =>
    by_cases h1 : m.Role = RoleSystem
    · simp [h1]
    · by_cases h2 : m.Role = RoleAssistant
      · simp [h2, role_distinct.1]
      · by_cases h3 : m.Role = RoleUser
        · simp [h3, role_distinct.2.1, role_distinct.2.2]
        · simp [h1, h2, h3]

theorem renderedLine_none_of_role (m : Message)
    (hr : ¬ (m.Role = RoleSystem ∨ m.Role = RoleAssistant ∨ m.Role = RoleUser)) :
    renderedLine m = none := by
  unfold renderedLine
  have h1 : ¬ m.Role = RoleSystem := fun hh => hr (Or.inl hh)
  have h2 : ¬ m.Role = RoleAssistant := fun hh => hr (Or.inr (Or.inl hh))
  have h3 : ¬ m.Role = RoleUser := fun hh => hr (Or.inr (Or.inr hh))
  cases m.Content <;> simp [h1, h2, h3]

theorem renderedLine_isColorPrint (m : Message) (e : Event) (he : renderedLine m = some e) :
    e.isColorPrint = true := by
  unfold renderedLine at he
  split at he
  · exact Option.noConfusion he
  · split at he
    · injection he with he; subst he; rfl
    · split at he
      · injection he with he; subst he; rfl
      · split at he
        · injection he with he; subst he; rfl
        · exact Option.noConfusion he

theorem length_filterMap_renderedLine (messages : List Message)
    (hcontent : ∀ m ∈ messages,
      (m.Role = RoleSystem ∨ m.Role = RoleAssistant ∨ m.Role = RoleUser) → m.Content ≠ []) :
    (messages.filterMap renderedLine).length =
      messages.countP fun m => m.Role = RoleSystem ∨ m.Role = RoleAssistant ∨ m.Role = RoleUser := by
  induction messages with
  | nil => rfl
  | cons m rest ih =>
    have ih2 := ih (fun m2 hm2 => hcontent m2 (by simp [hm2]))
    by_cases hr : m.Role = RoleSystem ∨ m.Role = RoleAssistant ∨ m.Role = RoleUser
    · have hs := (renderedLine_isSome_iff m (hcontent m (by simp) hr)).mpr hr
      obtain ⟨e, he⟩ := Option.isSome_iff_exists.mp hs
      simp [List.filterMap_cons, he, List.countP_cons, hr, ih2]
    · simp [List.filterMap_cons, renderedLine_none_of_role m hr, List.countP_cons, hr, ih2]

theorem promptStep_no_colorPrint (w : World) (thread : AiThread) (h : Trace) : ∃ evs,
    (promptStep w thread h).2 = h ++ evs ∧ ∀ e ∈ evs, e.isColorPrint = false := by
  rw [promptStep_eq]
  split
  · exact ⟨_, rfl, by simp [Event.isColorPrint]⟩
  · split
    · exact ⟨_, rfl, by simp [Event.isColorPrint]⟩
    · split
      · exact ⟨_, rfl, by simp [Event.isColorPrint]⟩
      · exact ⟨_, rfl, by simp [Event.isColorPrint]⟩

theorem filter_colorPrint_of_status (evs : Trace) (h : ∀ e ∈ evs, e.isStatusEvent = true) :
    evs.filter Event.isColorPrint = [] := by
  rw [List.filter_eq_nil_iff]
  intro e he hc
  have := h e he
  cases e <;> simp_all [Event.isStatusEvent, Event.isColorPrint]

/-- C6, as amended. Take a turn in which a run exists and whose status handling has not
aborted, and a page of messages in which every entry with the role `system`,
`assistant` or `user` has at least one content segment. The turn prints one line for
each entry with one of these three roles (label of the role, then the text of the
first segment) and nothing for an entry with any other role; the lines come in the
reverse of the order of the page, they are the only coloured lines of the turn, and
printing them does not abort the session. -/
theorem messages_rendered_oldest_first (w : World) (thread : AiThread) (pollFuel : Nat)
    (h h2 : Trace) (resp : ListRunsResponse) (firstRun : Run) (rest : List Run)
    (promptUser : Bool) (page : ListMessagesResponse)
    (hl : w.listRuns (h.countP Event.isListRuns) thread.ID runsPage = Except.ok resp)
    (hd : resp.Data = firstRun :: rest)
    (hstat : handleStatus w thread pollFuel firstRun (h ++ [Event.listRuns thread.ID runsPage]) =
      (Res.ok promptUser, h2))
    (hpage : w.listMessages (h.countP Event.isListMessages) thread.ID messagesPage =
      Except.ok page)
    (hcontent : ∀ m ∈ page.Data,
      (m.Role = RoleSystem ∨ m.Role = RoleAssistant ∨ m.Role = RoleUser) → m.Content ≠ []) :
    showMessages w thread h2 =
      (Res.ok (), h2 ++ [Event.listMessages thread.ID messagesPage] ++
        page.Data.reverse.filterMap renderedLine) ∧
    (page.Data.reverse.filterMap renderedLine).length =
      page.Data.countP (fun m =>
        m.Role = RoleSystem ∨ m.Role = RoleAssistant ∨ m.Role = RoleUser) ∧
    (emitted h (turn w thread pollFuel h).2).filter Event.isColorPrint =
      page.Data.reverse.filterMap renderedLine ∧
    (promptUser = false →
      turn w thread pollFuel h =
        (Res.ok Step.next, h2 ++ [Event.listMessages thread.ID messagesPage] ++
          page.Data.reverse.filterMap renderedLine)) := by
  obtain ⟨evs, e1, e2, _⟩ := handleStatus_events w thread pollFuel firstRun
    (h ++ [Event.listRuns thread.ID runsPage])
  rw [hstat] at e1
  simp only at e1
  subst e1
  have hcount : List.countP Event.isListMessages (h ++ [Event.listRuns thread.ID runsPage] ++ evs) =
      List.countP Event.isListMessages h := by
    have : evs.countP Event.isListMessages = 0 :=
      countP_eq_zero_of_forall e2 (by
        intro e he; cases e <;> simp_all [Event.isStatusEvent, Event.isListMessages])
    simp [List.countP_append, List.countP_cons, Event.isListMessages, this]
  have hrev : ∀ m ∈ page.Data.reverse,
      (m.Role = RoleSystem ∨ m.Role = RoleAssistant ∨ m.Role = RoleUser) → m.Content ≠ [] :=
    fun m hm => hcontent m (List.mem_reverse.mp hm)
  have hshow : showMessages w thread (h ++ [Event.listRuns thread.ID runsPage] ++ evs) =
      (Res.ok (), h ++ [Event.listRuns thread.ID runsPage] ++ evs ++
        [Event.listMessages thread.ID messagesPage] ++
        page.Data.reverse.filterMap renderedLine) := by
    have hp2 : w.listMessages (List.countP Event.isListMessages h) thread.ID
        { Limit := 20, Order := Desc, After := "", Before := "" } = Except.ok page := hpage
    simp only [showMessages, listMessages, hcount, hp2, reverse_eq_reverse]
    rw [renderMessages_ok _ _ hrev]
    rfl
  have hlines : ∀ e ∈ page.Data.reverse.filterMap renderedLine, e.isColorPrint = true := by
    intro e he
    rw [List.mem_filterMap] at he
    obtain ⟨m, _, hm⟩ := he
    exact renderedLine_isColorPrint m e hm
  have hturn := turn_first_run w thread pollFuel h resp firstRun rest hl hd
  change turn w thread pollFuel h = (match handleStatus w thread pollFuel firstRun
    (h ++ [Event.listRuns thread.ID runsPage]) with
    | (Res.abort e, h2) => (Res.abort e, h2)
    | (Res.ok promptUser, h2) =>
      match showMessages w thread h2 with
      | (Res.abort e, h3) => (Res.abort e, h3)
      | (Res.ok _, h3) =>
        if promptUser then promptStep w thread h3 else (Res.ok Step.next, h3)) at hturn
  rw [hstat] at hturn
  simp only [hshow] at hturn
  have hrev2 : (page.Data.reverse.filterMap renderedLine).length =
      page.Data.countP (fun m =>
        m.Role = RoleSystem ∨ m.Role = RoleAssistant ∨ m.Role = RoleUser) := by
    rw [length_filterMap_renderedLine _ hrev, List.countP_reverse]
  refine ⟨hshow, hrev2, ?_, ?_⟩
  · cases promptUser with
    | false =>
      simp only [Bool.false_eq_true, if_false] at hturn
      rw [hturn]
      simp only [List.append_assoc]
      rw [emitted_append]
      simp only [List.filter_append, filter_colorPrint_of_status evs e2,
        List.filter_eq_self.mpr hlines]
      simp [List.filter_cons, Event.isColorPrint]
    | true =>
      simp only [if_true] at hturn
      obtain ⟨post, hp1, hp2⟩ := promptStep_no_colorPrint w thread
        (h ++ [Event.listRuns thread.ID runsPage] ++ evs ++
          [Event.listMessages thread.ID messagesPage] ++
          page.Data.reverse.filterMap renderedLine)
      rw [hturn, hp1]
      simp only [List.append_assoc]
      rw [emitted_append]
      have hpost : post.filter Event.isColorPrint = [] := by
        rw [List.filter_eq_nil_iff]
        intro e he hc
        rw [hp2 e he] at hc
        exact Bool.noConfusion hc
      simp only [List.filter_append, filter_colorPrint_of_status evs e2,
        List.filter_eq_self.mpr hlines, hpost]
      simp [List.filter_cons, Event.isColorPrint]
  · intro hpu
    subst hpu
    simp only [Bool.false_eq_true, if_false] at hturn
    exact hturn

/-- C6 as stated fails on a page whose only entry has the role `tool`: the turn lists the
messages and prints no line for it. -/
theorem tool_role_message_not_rendered_counterexample :
    toolRoleWorld.listMessages 0 "thread_1" messagesPage =
      Except.ok { Data := [sampleMessage "msg_1" "tool" ["total 0"]] } ∧
    turn toolRoleWorld sampleThread 0 [] =
      (Res.ok Step.next,
        [Event.listRuns "thread_1" runsPage, Event.listMessages "thread_1" messagesPage]) ∧
    (emitted [] (turn toolRoleWorld sampleThread 0 []).2).countP Event.isColorPrint = 0 :=
  ⟨rfl, by decide, by decide⟩

/-- C6, as amended, on a completed run with two messages, listed newest first. -/
theorem messages_rendered_oldest_first_witness :
    showMessages completedWorld sampleThread ([] ++ [Event.listRuns "thread_1" runsPage]) =
      (Res.ok (), [] ++ [Event.listRuns "thread_1" runsPage] ++
        [Event.listMessages sampleThread.ID messagesPage] ++
        [Event.colorPrint Color.yellow "You: hi\n",
          Event.colorPrint Color.cyan "Assistant: Hello!\n"]) ∧
    (emitted [] (turn completedWorld sampleThread 0 []).2).filter Event.isColorPrint =
      [Event.colorPrint Color.yellow "You: hi\n",
        Event.colorPrint Color.cyan "Assistant: Hello!\n"] :=
  have key := messages_rendered_oldest_first completedWorld sampleThread 0 []
    ([] ++ [Event.listRuns "thread_1" runsPage])
    { Data := [sampleRun "completed" []] } (sampleRun "completed" []) [] true
    { Data := [sampleMessage "msg_2" "assistant" ["Hello!"],
        sampleMessage "msg_1" "user" ["hi"]] }
    rfl rfl (by decide) rfl (by decide)
  ⟨key.1, key.2.2.1⟩

/-! ## A run without a case in the `switch` (C10) -/

theorem showMessages_ok (w : World) (thread : AiThread) (h : Trace) (page : ListMessagesResponse)
    (hpage : w.listMessages (h.countP Event.isListMessages) thread.ID messagesPage =
      Except.ok page)
    (hcontent : ∀ m ∈ page.Data,
      (m.Role = RoleSystem ∨ m.Role = RoleAssistant ∨ m.Role = RoleUser) → m.Content ≠ []) :
    showMessages w thread h =
      (Res.ok (), h ++ [Event.listMessages thread.ID messagesPage] ++
        page.Data.reverse.filterMap renderedLine) := by
  have hrev : ∀ m ∈ page.Data.reverse,
      (m.Role = RoleSystem ∨ m.Role = RoleAssistant ∨ m.Role = RoleUser) → m.Content ≠ [] :=
    fun m hm => hcontent m (List.mem_reverse.mp hm)
  have hp2 : w.listMessages (List.countP Event.isListMessages h) thread.ID
      { Limit := 20, Order := Desc, After := "", Before := "" } = Except.ok page := hpage
  simp only [showMessages, listMessages, hp2, reverse_eq_reverse]
  rw [renderMessages_ok _ _ hrev]
  rfl

/-- The session loop keeps turning on a run without a case in the `switch` when the
messages can be listed and printed. -/
theorem chatLoop_other_status_runs (w : World) (thread : AiThread) (pollFuel : Nat) (run : Run)
    (hq : run.Status ≠ StatusQueued) (hi : run.Status ≠ StatusInProgress)
    (hc : run.Status ≠ StatusCancelling) (hr : run.Status ≠ StatusRequiresAction)
    (hcomp : run.Status ≠ StatusCompleted)
    (hkeep : ∀ j, ∃ rest, w.listRuns j thread.ID runsPage = Except.ok { Data := run :: rest })
    (hpages : ∀ j, ∃ page, w.listMessages j thread.ID messagesPage = Except.ok page ∧
      ∀ m ∈ page.Data,
        (m.Role = RoleSystem ∨ m.Role = RoleAssistant ∨ m.Role = RoleUser) → m.Content ≠ [])
    (n : Nat) : ∀ h : Trace, ∃ evs : Trace,
      chatLoop w thread pollFuel n h = (Res.abort Abort.outOfFuel, h ++ evs) ∧
      evs.countP Event.isListRuns = n := by
  induction n with
  | zero => intro h; exact ⟨[], by simp [chatLoop], rfl⟩
  | succ n ih =>
    intro h
    obtain ⟨rest, hl⟩ := hkeep (h.countP Event.isListRuns)
    have hcnt : List.countP Event.isListMessages (h ++ [Event.listRuns thread.ID runsPage]) =
        List.countP Event.isListMessages h := by
      simp [List.countP_append, List.countP_cons, Event.isListMessages]
    obtain ⟨page, hp, hcontent⟩ := hpages (h.countP Event.isListMessages)
    have hshow := showMessages_ok w thread (h ++ [Event.listRuns thread.ID runsPage]) page
      (by rw [hcnt]; exact hp) hcontent
    have ht := turn_other_status w thread pollFuel h _ run rest hq hi hc hr hcomp hl rfl
    rw [hshow] at ht
    simp only at ht
    obtain ⟨evs, i1, i2⟩ := ih (h ++ [Event.listRuns thread.ID runsPage] ++
      [Event.listMessages thread.ID messagesPage] ++ page.Data.reverse.filterMap renderedLine)
    refine ⟨[Event.listRuns thread.ID runsPage] ++
      [Event.listMessages thread.ID messagesPage] ++
      page.Data.reverse.filterMap renderedLine ++ evs, ?_, ?_⟩
    · simp only [chatLoop, ht]
      rw [i1]
      simp only [List.append_assoc]
    · have hz : (page.Data.reverse.filterMap renderedLine).countP Event.isListRuns = 0 := by
        rw [List.countP_eq_zero]
        intro e he hl2
        rw [List.mem_filterMap] at he
        obtain ⟨m, _, hm⟩ := he
        have := renderedLine_isColorPrint m e hm
        cases e <;> simp_all [Event.isColorPrint, Event.isListRuns]
      simp only [List.countP_append, hz, i2]
      simp [List.countP_cons, Event.isListRuns]
      omega

/-- A turn on a listed run whose status has no case in the `switch`: its events. -/
theorem turn_other_status_events (w : World) (thread : AiThread) (pollFuel : Nat) (h : Trace)
    (resp : ListRunsResponse) (run : Run) (rest : List Run)
    (hq : run.Status ≠ StatusQueued) (hi : run.Status ≠ StatusInProgress)
    (hc : run.Status ≠ StatusCancelling) (hr : run.Status ≠ StatusRequiresAction)
    (hcomp : run.Status ≠ StatusCompleted)
    (hl : w.listRuns (h.countP Event.isListRuns) thread.ID runsPage = Except.ok resp)
    (hd : resp.Data = run :: rest) :
    ∃ lines : Trace, (∀ e ∈ lines, e.isColorPrint = true) ∧
      (turn w thread pollFuel h).2 =
        h ++ [Event.listRuns thread.ID runsPage, Event.listMessages thread.ID messagesPage] ++
          lines ∧
      (turn w thread pollFuel h).1 ≠ Res.ok Step.stop ∧
      ((showMessages w thread (h ++ [Event.listRuns thread.ID runsPage])).1 = Res.ok () →
        (turn w thread pollFuel h).1 = Res.ok Step.next) := by
  have ht := turn_other_status w thread pollFuel h resp run rest hq hi hc hr hcomp hl hd
  obtain ⟨lines, hs1, hs2⟩ := showMessages_events w thread
    (h ++ [Event.listRuns thread.ID runsPage])
  refine ⟨lines, hs2, ?_, ?_, ?_⟩
  · rw [ht]
    cases hsm : showMessages w thread (h ++ [Event.listRuns thread.ID runsPage]) with
    | mk r3 h3 =>
      rw [hsm] at hs1
      simp only at hs1
      cases r3 <;> simp [hs1, messagesPage]
  · rw [ht]
    cases showMessages w thread (h ++ [Event.listRuns thread.ID runsPage]) with
    | mk r3 h3 => cases r3 <;> simp
  · intro hok
    rw [ht]
    cases hsm : showMessages w thread (h ++ [Event.listRuns thread.ID runsPage]) with
    | mk r3 h3 =>
      rw [hsm] at hok
      simp only at hok
      subst hok
      rfl

/-- The session loop on a service that keeps listing a run without a case in the `switch`. -/
theorem chatLoop_other_status (w : World) (thread : AiThread) (pollFuel : Nat) (run : Run)
    (hq : run.Status ≠ StatusQueued) (hi : run.Status ≠ StatusInProgress)
    (hc : run.Status ≠ StatusCancelling) (hr : run.Status ≠ StatusRequiresAction)
    (hcomp : run.Status ≠ StatusCompleted)
    (hkeep : ∀ j, ∃ rest, w.listRuns j thread.ID runsPage = Except.ok { Data := run :: rest })
    (n : Nat) : ∀ h : Trace, ∃ evs : Trace,
      (chatLoop w thread pollFuel n h).2 = h ++ evs ∧
      (∀ e ∈ evs, e.isListRuns = true ∨ e.isRenderEvent = true) ∧
      (chatLoop w thread pollFuel n h).1 ≠ Res.ok () := by
  induction n with
  | zero =>
    intro h
    exact ⟨[], by simp [chatLoop], by simp, by simp [chatLoop]⟩
  | succ n ih =>
    intro h
    obtain ⟨rest, hl⟩ := hkeep (h.countP Event.isListRuns)
    obtain ⟨lines, t1, t2, t3, _⟩ := turn_other_status_events w thread pollFuel h _ run rest
      hq hi hc hr hcomp hl rfl
    have hfirst : ∀ e ∈ [Event.listRuns thread.ID runsPage,
        Event.listMessages thread.ID messagesPage] ++ lines,
        e.isListRuns = true ∨ e.isRenderEvent = true := by
      intro e he
      simp at he
      rcases he with rfl | rfl | he
      · exact Or.inl rfl
      · exact Or.inr rfl
      · exact Or.inr (isRenderEvent_of_isColorPrint e (t1 e he))
    simp only [chatLoop]
    cases htn : turn w thread pollFuel h with
    | mk r h1 =>
      rw [htn] at t2 t3
      simp only at t2 t3
      subst t2
      cases r with
      | abort a =>
        exact ⟨_, by simp only [List.append_assoc], hfirst, by simp⟩
      | ok s =>
        cases s with
        | stop => exact absurd rfl t3
        | next =>
          simp only
          obtain ⟨evs, i1, i2, i3⟩ := ih (h ++ [Event.listRuns thread.ID runsPage,
            Event.listMessages thread.ID messagesPage] ++ lines)
          refine ⟨[Event.listRuns thread.ID runsPage,
            Event.listMessages thread.ID messagesPage] ++ lines ++ evs, ?_, ?_, i3⟩
          · rw [i1]; simp only [List.append_assoc]
          · exact isListRunsOrRender_append _ _ hfirst i2

theorem listing_event_kinds (e : Event) (he : e.isListRuns = true ∨ e.isRenderEvent = true) :
    e.isCreateMessage = false ∧ e.isCreateRun = false ∧ e.isSleep = false ∧
      e.isGetRun = false ∧ e.isExecuteCommand = false ∧ e.isSubmit = false := by
  cases e <;>
    simp_all [Event.isListRuns, Event.isRenderEvent, Event.isCreateMessage, Event.isCreateRun,
      Event.isSleep, Event.isGetRun, Event.isExecuteCommand, Event.isSubmit]

/-- C10. A turn whose first-fetched run has a status that is none of `queued`,
`in_progress`, `cancelling`, `requires_action` and `completed` lists the runs, lists the
messages and prints them, and does nothing else: no sleep, no re-fetch, no command, no
submission, no prompt, no `createMessage`, no `createRun`; it does not end the loop, and
it starts the next turn when listing and printing have not aborted. As long as the
service keeps listing that run, whatever the bound `n` on the number of turns, the
session emits nothing but these events and never returns: it is never prompted and
never creates a run; and when the messages can be listed and printed, all `n` turns
take place and the loop is still running after them. -/
theorem other_status_session_is_stuck (w : World) (thread : AiThread) (pollFuel : Nat)
    (run : Run)
    (hq : run.Status ≠ StatusQueued) (hi : run.Status ≠ StatusInProgress)
    (hc : run.Status ≠ StatusCancelling) (hr : run.Status ≠ StatusRequiresAction)
    (hcomp : run.Status ≠ StatusCompleted) :
    (∀ (h : Trace) (resp : ListRunsResponse) (rest : List Run),
      w.listRuns (h.countP Event.isListRuns) thread.ID runsPage = Except.ok resp →
      resp.Data = run :: rest →
      ∃ lines : Trace, (∀ e ∈ lines, e.isColorPrint = true) ∧
        (turn w thread pollFuel h).2 =
          h ++ [Event.listRuns thread.ID runsPage, Event.listMessages thread.ID messagesPage] ++
            lines ∧
        (turn w thread pollFuel h).1 ≠ Res.ok Step.stop ∧
        ((showMessages w thread (h ++ [Event.listRuns thread.ID runsPage])).1 = Res.ok () →
          (turn w thread pollFuel h).1 = Res.ok Step.next)) ∧
    ((∀ j, ∃ rest, w.listRuns j thread.ID runsPage = Except.ok { Data := run :: rest }) →
      ∀ (n : Nat) (h : Trace),
        (chatLoop w thread pollFuel n h).1 ≠ Res.ok () ∧
        (∀ e ∈ emitted h (chatLoop w thread pollFuel n h).2,
          e.isListRuns = true ∨ e.isRenderEvent = true) ∧
        Event.readString ∉ emitted h (chatLoop w thread pollFuel n h).2 ∧
        (emitted h (chatLoop w thread pollFuel n h).2).countP Event.isCreateMessage = 0 ∧
        (emitted h (chatLoop w thread pollFuel n h).2).countP Event.isCreateRun = 0 ∧
        (emitted h (chatLoop w thread pollFuel n h).2).countP Event.isSleep = 0 ∧
        (emitted h (chatLoop w thread pollFuel n h).2).countP Event.isGetRun = 0 ∧
        (emitted h (chatLoop w thread pollFuel n h).2).countP Event.isExecuteCommand = 0 ∧
        (emitted h (chatLoop w thread pollFuel n h).2).countP Event.isSubmit = 0 ∧
        ((∀ j, ∃ page, w.listMessages j thread.ID messagesPage = Except.ok page ∧
            ∀ m ∈ page.Data,
              (m.Role = RoleSystem ∨ m.Role = RoleAssistant ∨ m.Role = RoleUser) →
                m.Content ≠ []) →
          (chatLoop w thread pollFuel n h).1 = Res.abort Abort.outOfFuel ∧
          (emitted h (chatLoop w thread pollFuel n h).2).countP Event.isListRuns = n)) := by
  constructor
  · intro h resp rest hl hd
    exact turn_other_status_events w thread pollFuel h resp run rest hq hi hc hr hcomp hl hd
  · intro hkeep n h
    have hrun : (∀ j, ∃ page, w.listMessages j thread.ID messagesPage = Except.ok page ∧
          ∀ m ∈ page.Data,
            (m.Role = RoleSystem ∨ m.Role = RoleAssistant ∨ m.Role = RoleUser) →
              m.Content ≠ []) →
        (chatLoop w thread pollFuel n h).1 = Res.abort Abort.outOfFuel ∧
        (emitted h (chatLoop w thread pollFuel n h).2).countP Event.isListRuns = n := by
      intro hpages
      obtain ⟨evs, r1, r2⟩ := chatLoop_other_status_runs w thread pollFuel run hq hi hc hr hcomp
        hkeep hpages n h
      refine ⟨by rw [r1], ?_⟩
      rw [r1, emitted_append]
      exact r2
    obtain ⟨evs, e1, e2, e3⟩ := chatLoop_other_status w thread pollFuel run hq hi hc hr hcomp
      hkeep n h
    rw [e1, emitted_append]
    have hz : ∀ q : Event → Bool,
        (∀ e, (e.isListRuns = true ∨ e.isRenderEvent = true) → q e = false) →
        evs.countP q = 0 := by
      intro q hq2
      rw [List.countP_eq_zero]
      intro e he hqe
      rw [hq2 e (e2 e he)] at hqe
      exact Bool.noConfusion hqe
    refine ⟨e3, e2, ?_, ?_, ?_, ?_, ?_, ?_, ?_, ?_⟩
    · intro hm
      rcases e2 _ hm with hx | hx <;> exact Bool.noConfusion hx
    · exact hz _ (fun e he => (listing_event_kinds e he).1)
    · exact hz _ (fun e he => (listing_event_kinds e he).2.1)
    · exact hz _ (fun e he => (listing_event_kinds e he).2.2.1)
    · exact hz _ (fun e he => (listing_event_kinds e he).2.2.2.1)
    · exact hz _ (fun e he => (listing_event_kinds e he).2.2.2.2.1)
    · exact hz _ (fun e he => (listing_event_kinds e he).2.2.2.2.2)
    · rw [← emitted_append h evs, ← e1]
      exact hrun

/-- C10 on a failed run: three turns list the runs, list the messages and print the one
message, and the loop is still running. -/
theorem other_status_session_is_stuck_witness :
    chatLoop failedWorld sampleThread 0 3 [] =
      (Res.abort Abort.outOfFuel,
        [Event.listRuns "thread_1" runsPage, Event.listMessages "thread_1" messagesPage,
          Event.colorPrint Color.yellow "You: hi\n",
          Event.listRuns "thread_1" runsPage, Event.listMessages "thread_1" messagesPage,
          Event.colorPrint Color.yellow "You: hi\n",
          Event.listRuns "thread_1" runsPage, Event.listMessages "thread_1" messagesPage,
          Event.colorPrint Color.yellow "You: hi\n"]) ∧
    ((chatLoop failedWorld sampleThread 0 3 []).1 ≠ Res.ok () ∧
      (∀ e ∈ emitted [] (chatLoop failedWorld sampleThread 0 3 []).2,
        e.isListRuns = true ∨ e.isRenderEvent = true) ∧
      Event.readString ∉ emitted [] (chatLoop failedWorld sampleThread 0 3 []).2 ∧
      (emitted [] (chatLoop failedWorld sampleThread 0 3 []).2).countP Event.isCreateMessage = 0 ∧
      (emitted [] (chatLoop failedWorld sampleThread 0 3 []).2).countP Event.isCreateRun = 0 ∧
      (emitted [] (chatLoop failedWorld sampleThread 0 3 []).2).countP Event.isSleep = 0 ∧
      (emitted [] (chatLoop failedWorld sampleThread 0 3 []).2).countP Event.isGetRun = 0 ∧
      (emitted [] (chatLoop failedWorld sampleThread 0 3 []).2).countP Event.isExecuteCommand = 0 ∧
      (emitted [] (chatLoop failedWorld sampleThread 0 3 []).2).countP Event.isSubmit = 0 ∧
      ((∀ j, ∃ page, failedWorld.listMessages j sampleThread.ID messagesPage = Except.ok page ∧
          ∀ m ∈ page.Data,
            (m.Role = RoleSystem ∨ m.Role = RoleAssistant ∨ m.Role = RoleUser) →
              m.Content ≠ []) →
        (chatLoop failedWorld sampleThread 0 3 []).1 = Res.abort Abort.outOfFuel ∧
        (emitted [] (chatLoop failedWorld sampleThread 0 3 []).2).countP Event.isListRuns = 3)) :=
  ⟨by decide,
    (other_status_session_is_stuck failedWorld sampleThread 0 (sampleRun "failed" [])
      (by decide) (by decide) (by decide) (by decide) (by decide)).2
      (fun _ => ⟨[], rfl⟩) 3 []⟩

/-! ## The store file (C9) -/

/-- C9. Loading the thread is a round trip over the store file. With no store file,
`getThread` creates a thread through the service, writes the record to `store.json`
and returns the thread. A following `getThread` on the store left by that load, and more
generally any `getThread` on a store file that holds a readable record, returns the
thread of the record, creates no thread and leaves the file as it is; so two loads in a
row return the same thread identifier. (The service call, `json.Marshal` and the write
are taken to succeed, and `json.Unmarshal` to read back what `json.Marshal` wrote.) -/
theorem getThread_round_trip (w : World) (fs : FS) (h : Trace) (thread : AiThread)
    (data : String)
    (habsent : fs.store = FileState.absent)
    (hwritable : fs.readOnly = false)
    (hcreate : w.createThread (h.countP Event.isCreateThread) = Except.ok thread)
    (hid : thread.ID ≠ "")
    (hmarshal : w.marshalStore { Thread := thread } = Except.ok data)
    (hunmarshal : w.unmarshalStore data = some { Thread := thread }) :
    getThread w fs h =
      (Res.ok (thread, none), { fs with store := FileState.content data },
        h ++ [Event.readFile "store.json", Event.createThread,
          Event.writeFile "store.json" data]) ∧
    (∀ h2 : Trace, getThread w { fs with store := FileState.content data } h2 =
      (Res.ok (thread, none), { fs with store := FileState.content data },
        h2 ++ [Event.readFile "store.json"])) ∧
    (∀ (fs2 : FS) (h2 : Trace) (data2 : String) (record : Store),
      fs2.store = FileState.content data2 → w.unmarshalStore data2 = some record →
      getThread w fs2 h2 = (Res.ok (record.Thread, none), fs2, h2 ++ [Event.readFile "store.json"]) ∧
      ∀ h3 : Trace, (getThread w (getThread w fs2 h2).2.1 h3).1 = (getThread w fs2 h2).1) := by
  have hread : ∀ (fs2 : FS) (h2 : Trace) (data2 : String) (record : Store),
      fs2.store = FileState.content data2 → w.unmarshalStore data2 = some record →
      getThread w fs2 h2 =
        (Res.ok (record.Thread, none), fs2, h2 ++ [Event.readFile "store.json"]) := by
    intro fs2 h2 data2 record hs hu
    simp only [getThread, ReadFile, hs, if_true, hu]
  refine ⟨?_, ?_, ?_⟩
  · have hne : ¬ thread.ID = "" := hid
    have hc2 : List.countP Event.isCreateThread (h ++ [Event.readFile "store.json"]) =
        List.countP Event.isCreateThread h := by
      simp [List.countP_append, List.countP_cons, Event.isCreateThread]
    simp [getThread, ReadFile, habsent, IsNotExist, createThread, hc2, hcreate, hne, hmarshal,
      WriteFile, hwritable]
  · intro h2
    exact hread _ h2 data { Thread := thread } rfl hunmarshal
  · intro fs2 h2 data2 record hs hu
    refine ⟨hread fs2 h2 data2 record hs hu, ?_⟩
    intro h3
    rw [hread fs2 h2 data2 record hs hu]
    simp only
    rw [hread fs2 h3 data2 record hs hu]

/-- C9 on a fresh session: the thread `thread_1` is created, stored, and read back. -/
theorem getThread_round_trip_witness :
    getThread idleWorld emptyStore [] =
      (Res.ok (sampleThread, none), loadedStore,
        [] ++ [Event.readFile "store.json", Event.createThread,
          Event.writeFile "store.json" sampleStoreData]) ∧
    (∀ h2 : Trace, getThread idleWorld loadedStore h2 =
      (Res.ok (sampleThread, none), loadedStore, h2 ++ [Event.readFile "store.json"])) :=
  have key := getThread_round_trip idleWorld emptyStore [] sampleThread sampleStoreData
    rfl rfl rfl (by decide) rfl rfl
  ⟨key.1, key.2.1⟩

end AI
